import Mathlib

/-!
# Verification of the searXNG-mcp batch search / scrape server

Shallow embedding of the repository's Python modules:

* `src/searxng_mcp/config.py`   — `Config` structure (numeric defaults);
* `src/searxng_mcp/search.py`   — `validate_num_results`, `search_query`, `search_web`;
* `src/searxng_mcp/scraper.py`  — `clean_html`, `scrape_with_requests`,
  `scrape_with_browser`, `scrape_pages`;
* `src/server.py`               — the standalone MCP tool functions
  `server_search_web` / `server_scrape_pages` (these re-implement the logic
  and do NOT call into the `searxng_mcp` package).

Python strings are modelled as `List Char`; Python `dict` (insertion-ordered,
assignment overwrites in place) as an association list with `insertAssoc`;
the network / browser environment as per-attempt behaviour functions; the
float `RETRY_DELAY` as a rational number.
-/

set_option autoImplicit false

namespace SearxngMCP

/-! ## Python string primitives -/

/-- Characters Python's `str.split()` / `str.strip()` treat as whitespace
(ASCII subset: space, tab, newline, carriage return, vertical tab, form feed). -/
def isWs (c : Char) : Bool :=
  c = ' ' || c = '\t' || c = '\n' || c = '\r' || c = Char.ofNat 11 || c = Char.ofNat 12

theorem length_dropWhile_le {α : Type} (p : α → Bool) (l : List α) :
    (l.dropWhile p).length ≤ l.length := by
  induction l with
  | nil => simp [List.dropWhile]
  | cons a l ih =>
    by_cases h : p a
    · simp only [List.dropWhile, h, List.length_cons]
      omega
    · simp [List.dropWhile, h]

/-- Python `str.split()` with no separator: maximal runs of non-whitespace. -/
def words (l : List Char) : List (List Char) :=
  match l with
  | [] => []
  | c :: cs =>
    if isWs c then words cs
    else (c :: cs.takeWhile (fun x => !isWs x)) :: words (cs.dropWhile (fun x => !isWs x))
termination_by l.length
decreasing_by
  · simp only [List.length_cons]; omega
  · simp only [List.length_cons]
    exact Nat.lt_succ_of_le (length_dropWhile_le _ _)

/-- Python `' '.join(ws)`. -/
def joinWords : List (List Char) → List Char
  | [] => []
  | [w] => w
  | w :: ws => w ++ ' ' :: joinWords ws

/-- `' '.join(text.split())` — collapse all whitespace runs to single spaces
and trim (the final normalisation step of `clean_html`). -/
def normalizeWs (l : List Char) : List Char :=
  joinWords (words l)

/-- Python `str.strip()`: drop leading and trailing whitespace. -/
def stripList (l : List Char) : List Char :=
  ((l.dropWhile isWs).reverse.dropWhile isWs).reverse

/-- Python slice `xs[:n]` for an `int` bound `n` (negative bound counts from
the end, clipped at zero). -/
def pySliceTo {α : Type} (xs : List α) (n : Int) : List α :=
  if n < 0 then xs.take ((xs.length : Int) + n).toNat else xs.take n.toNat

/-- Decimal rendering of a natural number, for embedded `f"..."` messages. -/
def natChars (n : Nat) : List Char :=
  (Nat.repr n).toList

/-! ## Python `dict` as an insertion-ordered association list

`results[k] = v` keeps the position of an existing key and appends a fresh
key at the end — exactly CPython's insertion-ordered `dict`. -/

/-- `d[k] = v` on an insertion-ordered dict. -/
def insertAssoc {κ α : Type} [DecidableEq κ] (k : κ) (v : α) :
    List (κ × α) → List (κ × α)
  | [] => [(k, v)]
  | p :: rest => if p.1 = k then (k, v) :: rest else p :: insertAssoc k v rest

/-- `d.get(k)` on the association-list dict. -/
def lookupAssoc {κ α : Type} [DecidableEq κ] (k : κ) : List (κ × α) → Option α
  | [] => none
  | p :: rest => if p.1 = k then some p.2 else lookupAssoc k rest

/-- `results = {}; for (k, v) in pairs: results[k] = v`. -/
def buildDict {κ α : Type} [DecidableEq κ] (pairs : List (κ × α)) : List (κ × α) :=
  pairs.foldl (fun d p => insertAssoc p.1 p.2 d) []

/-- The keys of `ks` that are not in `seen`, first occurrence only, in input
order: the key sequence a dict built by successive assignment ends up with. -/
def newKeys {κ : Type} [DecidableEq κ] (seen : List κ) : List κ → List κ
  | [] => []
  | k :: ks => if k ∈ seen then newKeys seen ks else k :: newKeys (k :: seen) ks

/-! ## HTML documents and the content normaliser (`scraper.py`, `clean_html`) -/

/-- A parsed HTML node as `BeautifulSoup` presents it: an element with its tag
name, its `class` attribute, its `id` attribute and its children, or a text
node. Attribute values are modelled as the attribute string (absent = `none`). -/
inductive Html : Type
  | elem (tag : List Char) (classAttr : Option (List Char)) (idAttr : Option (List Char))
      (children : List Html)
  | text (s : List Char)

/-- ASCII lowercasing, as Python `str.lower()` on the attribute values used
in `clean_html` (the patterns searched for are all ASCII). -/
def lowerChars (l : List Char) : List Char :=
  l.map Char.toLower

/-- `pattern in s` — Python substring test, via `List.isInfix` (decidable). -/
def substrIn (pattern s : List Char) : Bool :=
  decide (pattern <:+: s)

/-- The tag denylist of `clean_html` (`unwanted_tags`). -/
def unwantedTags : List (List Char) :=
  ["script", "style", "nav", "footer", "header",
   "aside", "noscript", "iframe", "form", "button",
   "meta", "link", "svg", "img", "video", "audio"].map String.toList

/-- The class/id substring denylist of `clean_html` (`non_content_patterns`). -/
def nonContentPatterns : List (List Char) :=
  ["nav", "footer", "header", "sidebar", "menu",
   "ad", "advertisement", "cookie", "popup", "modal"].map String.toList

/-- Does an attribute value trigger removal: present and containing one of the
`non_content_patterns` case-insensitively (`pattern in str(x).lower()`)? -/
def attrMatches (attr : Option (List Char)) : Bool :=
  match attr with
  | none => false
  | some a => nonContentPatterns.any (fun p => substrIn p (lowerChars a))

/-- Should `clean_html` decompose this node?  The source runs three
`find_all(...).decompose()` passes (by tag, by class, by id); since no test
depends on other nodes and `decompose` removes whole subtrees, the three
passes are together equivalent to one top-down sweep removing every node
that satisfies any of the three conditions. -/
def removedNode : Html → Bool
  | .elem tag classAttr idAttr _ =>
    decide (tag ∈ unwantedTags) || attrMatches classAttr || attrMatches idAttr
  | .text _ => false

mutual

/-- Drop the decomposed nodes from a forest, keeping document order. -/
def pruneForest : List Html → List Html
  | [] => []
  | h :: hs => if removedNode h then pruneForest hs else pruneNode h :: pruneForest hs

/-- Drop the decomposed nodes inside a kept node. -/
def pruneNode : Html → Html
  | .elem tag classAttr idAttr children => .elem tag classAttr idAttr (pruneForest children)
  | .text s => .text s

end

mutual

/-- The stripped, non-empty text fragments of a forest, in document order
(what `get_text(separator=' ', strip=True)` joins with the separator). -/
def textFragmentsForest : List Html → List (List Char)
  | [] => []
  | h :: hs => textFragments h ++ textFragmentsForest hs

/-- The stripped, non-empty text fragments of a node. -/
def textFragments : Html → List (List Char)
  | .elem _ _ _ children => textFragmentsForest children
  | .text s => if stripList s = [] then [] else [stripList s]

end

/-- `soup.get_text(separator=' ', strip=True)`. -/
def getTextStrip (h : Html) : List Char :=
  joinWords (textFragments h)

/-- `clean_html(soup)` from `src/searxng_mcp/scraper.py` (the identical copy
in `src/server.py` is the same function): remove denylisted tags, remove
elements whose class/id contains a non-content pattern, extract text with a
space separator, collapse whitespace. -/
def clean_html (soup : Html) : List Char :=
  normalizeWs (getTextStrip (pruneNode soup))

/-- Modelled from the spec: the result of parsing markup-free plain text —
such as the normaliser's own output — with the external HTML parser is a
document holding that text as its sole text node (the parser itself is the
external `lxml` collaborator, out of scope). -/
def parseText (s : List Char) : Html :=
  .text s

/-! ## Configuration (`src/searxng_mcp/config.py`) -/

/-- The process-wide settings of `config.py`, with their documented numeric
defaults. `RETRY_DELAY` is a Python float; it is modelled as a rational. -/
structure Config : Type where
  requests_timeout : Nat := 10
  browser_timeout : Nat := 30000
  max_content_length : Nat := 10000
  max_num_results : Nat := 50
  searxng_url : List Char := "http://localhost:8080".toList
  max_retries : Nat := 3
  retry_delay : ℚ := 1
deriving DecidableEq

/-- The configuration with every environment variable unset. -/
def defaultConfig : Config := {}

/-! ## Search executor and search orchestrator (`src/searxng_mcp/search.py`) -/

/-- `validate_num_results` — clamp the requested count into
`[1, MAX_NUM_RESULTS]`. -/
def validate_num_results (maxNum : Nat) (numResults : Int) : Int :=
  if numResults < 1 then 1
  else if numResults > (maxNum : Int) then (maxNum : Int)
  else numResults

/-- One entry of the backend's JSON `results` array; each field read with
`item.get(..., "")`, so absent fields are `none`. -/
structure RawHit : Type where
  title : Option (List Char) := none
  url : Option (List Char) := none
  content : Option (List Char) := none
deriving DecidableEq

/-- One formatted search hit `{title, url, content}`. -/
structure SearchHit : Type where
  title : List Char
  url : List Char
  content : List Char
deriving DecidableEq

/-- `{"title": item.get("title", ""), "url": ..., "content": ...}`. -/
def formatHit (r : RawHit) : SearchHit :=
  ⟨r.title.getD [], r.url.getD [], r.content.getD []⟩

/-- Outcome status. -/
inductive Status : Type
  | success
  | error
deriving DecidableEq

/-- A `search_query` outcome dictionary.  Success outcomes carry no `error`
key, so the field is an `Option` that is `none` exactly when absent. -/
structure SearchOutcome : Type where
  status : Status
  count : Nat
  results : List SearchHit
  error : Option (List Char) := none
deriving DecidableEq

/-- How the HTTP layer answers one `requests.get` issued by `search_query`:
a parsed JSON `results` array, or one of the exception classes the source
catches (`Timeout`, `ConnectionError`, `HTTPError`, `ValueError` from
`.json()`, any other `Exception`). -/
inductive HttpAttempt : Type
  | ok (results : List RawHit)
  | timeout
  | connError
  | httpError (code : Nat)
  | invalidJson (msg : List Char)
  | otherError (msg : List Char)
deriving DecidableEq

/-- What a run observably did to the outside world: number of HTTP requests
issued, and the `asyncio.sleep` delays between retry attempts, in order. -/
structure NetTrace : Type where
  attempts : Nat := 0
  delays : List ℚ := []
deriving DecidableEq

def requestTimeoutMsg (cfg : Config) : List Char :=
  "Request timed out after ".toList ++ natChars cfg.requests_timeout ++ " seconds".toList

def searchConnMsg (cfg : Config) : List Char :=
  "Failed to connect to SearXNG at ".toList ++ cfg.searxng_url

def httpErrorMsg (code : Nat) : List Char :=
  "HTTP error: ".toList ++ natChars code

def invalidJsonMsg (msg : List Char) : List Char :=
  "Invalid JSON response from SearXNG: ".toList ++ msg

def unexpectedErrMsg (msg : List Char) : List Char :=
  "Unexpected error: ".toList ++ msg

def maxRetriesMsg : List Char :=
  "Max retries exceeded".toList

/-- The dead-code fallthrough after the loop (`# Should not reach here`). -/
def maxRetriesSearchOutcome : SearchOutcome :=
  { status := .error, error := some maxRetriesMsg, count := 0, results := [] }

/-- The `for attempt in range(MAX_RETRIES)` loop of `search_query`.
`fuel` counts the iterations still to run, so `fuel = 0` after the current
one means `attempt == MAX_RETRIES - 1` (the Python test
`attempt < MAX_RETRIES - 1` is `fuel ≠ 0`).  `numResults` is already
clamped, as in the source. -/
def search_query_go (cfg : Config) (env : Nat → HttpAttempt) (numResults : Nat) :
    Nat → Nat → SearchOutcome × NetTrace
  | _, 0 => (maxRetriesSearchOutcome, {})
  | attempt, fuel + 1 =>
    match env attempt with
    | .ok raws =>
      let formatted := (raws.take numResults).map formatHit
      ({ status := .success, count := formatted.length, results := formatted },
       { attempts := 1 })
    | .timeout =>
      if fuel = 0 then
        ({ status := .error, error := some (requestTimeoutMsg cfg), count := 0, results := [] },
         { attempts := 1 })
      else
        let r := search_query_go cfg env numResults (attempt + 1) fuel
        (r.1, { attempts := r.2.attempts + 1,
                delays := cfg.retry_delay * (attempt + 1 : Nat) :: r.2.delays })
    | .connError =>
      if fuel = 0 then
        ({ status := .error, error := some (searchConnMsg cfg), count := 0, results := [] },
         { attempts := 1 })
      else
        let r := search_query_go cfg env numResults (attempt + 1) fuel
        (r.1, { attempts := r.2.attempts + 1,
                delays := cfg.retry_delay * (attempt + 1 : Nat) :: r.2.delays })
    | .httpError code =>
      ({ status := .error, error := some (httpErrorMsg code), count := 0, results := [] },
       { attempts := 1 })
    | .invalidJson msg =>
      ({ status := .error, error := some (invalidJsonMsg msg), count := 0, results := [] },
       { attempts := 1 })
    | .otherError msg =>
      ({ status := .error, error := some (unexpectedErrMsg msg), count := 0, results := [] },
       { attempts := 1 })

/-- `search_query(query, num_results=5)` — clamp `num_results`, then run the
retry loop against the network behaviour `env` (`env a` answers the request
of attempt `a`).  The query string only feeds the request parameters. -/
def search_query (cfg : Config) (env : Nat → HttpAttempt) (query : List Char)
    (numResults : Int := 5) : SearchOutcome × NetTrace :=
  search_query_go cfg env (validate_num_results cfg.max_num_results numResults).toNat
    0 cfg.max_retries

/-- One batch item of `search_web`: the caller's config dict (`query` read
with `.get("query")`, `num_results` with `.get("num_results", 5)`). -/
structure QueryConfig : Type where
  query : Option (List Char) := none
  num_results : Option Int := none

/-- The sentinel key used for items without a usable query. -/
def missingQueryKey : List Char :=
  "<missing_query>".toList

/-- The error outcome recorded for items without a usable query. -/
def queryRequiredOutcome : SearchOutcome :=
  { status := .error, error := some "Query field is required".toList,
    count := 0, results := [] }

/-- The dict key an item ends up under: `if not query` (missing or empty
string, both falsy) the sentinel, else the query itself. -/
def searchItemKey (c : QueryConfig) : List Char :=
  match c.query with
  | none => missingQueryKey
  | some q => if q = [] then missingQueryKey else q

/-- The outcome and network trace of one `search_web` item: a falsy query is
answered locally without calling `search_query`. -/
def searchItemRun (cfg : Config) (item : QueryConfig × (Nat → HttpAttempt)) :
    SearchOutcome × NetTrace :=
  match item.1.query with
  | none => (queryRequiredOutcome, {})
  | some q =>
    if q = [] then (queryRequiredOutcome, {})
    else search_query cfg item.2 q (item.1.num_results.getD 5)

/-- `search_web(query_configs)` from `src/searxng_mcp/search.py`: iterate the
items in order, record each outcome in the results dict, and also report the
total number of HTTP requests issued. -/
def search_web (cfg : Config) (items : List (QueryConfig × (Nat → HttpAttempt))) :
    List (List Char × SearchOutcome) × Nat :=
  items.foldl
    (fun acc item =>
      let r := searchItemRun cfg item
      (insertAssoc (searchItemKey item.1) r.1 acc.1, acc.2 + r.2.attempts))
    ([], 0)

/-! ## Fetch strategies and scrape orchestrator (`src/searxng_mcp/scraper.py`) -/

/-- A scrape outcome dictionary.  Keys the Python code leaves out of a given
dict are `none`: error outcomes carry no `original_length`/`truncated`, and
`src/server.py`'s success outcomes omit them as well. -/
structure ScrapeOutcome : Type where
  status : Status
  method : List Char
  title : List Char
  content : List Char
  length : Nat
  original_length : Option Nat := none
  truncated : Option Bool := none
  error : Option (List Char) := none
deriving DecidableEq

/-- How one `requests.get` of the static strategy turns out: a parsed
document, or one of the caught exception classes. -/
inductive FetchAttempt : Type
  | ok (doc : Html)
  | timeout
  | connError
  | httpError (code : Nat)
  | otherError (excName msg : List Char)
deriving Inhabited

/-- `f"\x7btype(e).__name__\x7d: \x7bstr(e)\x7d"`. -/
def excMsg (excName msg : List Char) : List Char :=
  excName ++ ": ".toList ++ msg

def connectMsg (url : List Char) : List Char :=
  "Failed to connect to ".toList ++ url

def browserTimeoutMsg (cfg : Config) : List Char :=
  "Browser timeout after ".toList ++ natChars cfg.browser_timeout ++ "ms".toList

/-- The shape every error return of the scraper shares:
`status=error`, the method, the message, and empty title/content/length. -/
def scrapeError (method msg : List Char) : ScrapeOutcome :=
  { status := .error, method := method, error := some msg,
    title := [], content := [], length := 0 }

/-- `tag.string` — the value of a tag holding exactly one text child. -/
def elemString : Html → Option (List Char)
  | .elem _ _ _ [.text s] => some s
  | _ => none

mutual

/-- `soup.title` restricted to a node: the first `<title>` element in
document order. -/
def findTitle : Html → Option Html
  | .elem tag classAttr idAttr children =>
    if tag = "title".toList then some (.elem tag classAttr idAttr children)
    else findTitleForest children
  | .text _ => none

/-- `soup.title` over a forest. -/
def findTitleForest : List Html → Option Html
  | [] => none
  | h :: hs =>
    match findTitle h with
    | some t => some t
    | none => findTitleForest hs

end

/-- `title = soup.title.string.strip() if soup.title and soup.title.string
else ""` (both `None` and the empty string are falsy). -/
def docTitle (doc : Html) : List Char :=
  match findTitle doc with
  | none => []
  | some t =>
    match elemString t with
    | none => []
    | some s => if s = [] then [] else stripList s

/-- `if len(content) > MAX_CONTENT_LENGTH: content = content[:MAX] + "..."`
— the truncation step shared verbatim by both strategies; returns the
(possibly truncated) content and the `truncated` flag. -/
def truncateContent (maxContentLength : Nat) (content : List Char) :
    List Char × Bool :=
  if content.length > maxContentLength then
    (content.take maxContentLength ++ "...".toList, true)
  else (content, false)

/-- The success dict of `scrape_with_requests`. -/
def requestsSuccess (cfg : Config) (doc : Html) : ScrapeOutcome :=
  let title := docTitle doc
  let content := clean_html doc
  let original_length := content.length
  let t := truncateContent cfg.max_content_length content
  { status := .success, method := "requests".toList, title := title,
    content := t.1, length := t.1.length,
    original_length := some original_length, truncated := some t.2 }

/-- The `for attempt in range(MAX_RETRIES)` loop of `scrape_with_requests`
(`fuel = 0` after this iteration ⟺ `attempt == MAX_RETRIES - 1`). -/
def scrape_with_requests_go (cfg : Config) (url : List Char) (env : Nat → FetchAttempt) :
    Nat → Nat → ScrapeOutcome × NetTrace
  | _, 0 => (scrapeError "requests".toList maxRetriesMsg, {})
  | attempt, fuel + 1 =>
    match env attempt with
    | .ok doc => (requestsSuccess cfg doc, { attempts := 1 })
    | .timeout =>
      if fuel = 0 then
        (scrapeError "requests".toList (requestTimeoutMsg cfg), { attempts := 1 })
      else
        let r := scrape_with_requests_go cfg url env (attempt + 1) fuel
        (r.1, { attempts := r.2.attempts + 1,
                delays := cfg.retry_delay * (attempt + 1 : Nat) :: r.2.delays })
    | .connError =>
      if fuel = 0 then
        (scrapeError "requests".toList (connectMsg url), { attempts := 1 })
      else
        let r := scrape_with_requests_go cfg url env (attempt + 1) fuel
        (r.1, { attempts := r.2.attempts + 1,
                delays := cfg.retry_delay * (attempt + 1 : Nat) :: r.2.delays })
    | .httpError code =>
      (scrapeError "requests".toList (httpErrorMsg code), { attempts := 1 })
    | .otherError excName msg =>
      (scrapeError "requests".toList (excMsg excName msg), { attempts := 1 })

/-- `scrape_with_requests(url)` against the HTTP behaviour `env`. -/
def scrape_with_requests (cfg : Config) (url : List Char) (env : Nat → FetchAttempt) :
    ScrapeOutcome × NetTrace :=
  scrape_with_requests_go cfg url env 0 cfg.max_retries

/-- How one iteration of `scrape_with_browser` goes: `get_browser()` raising
`RuntimeError` (not retried, no page opened), `new_page` raising before the
page is assigned (retried, nothing to close), a navigation timeout or any
other fault after the page was opened (retried, page closed by `finally`),
or a full render (page closed by `finally`). -/
inductive BrowserAttempt : Type
  | getBrowserFail (msg : List Char)
  | newPageFail (excName msg : List Char)
  | gotoTimeout
  | pageFail (excName msg : List Char)
  | ok (doc : Html) (title : List Char)
deriving Inhabited

/-- Observable side effects of a browser scrape: which attempts opened a
page, which attempts' pages were closed (the `finally` swallows errors from
`page.close()` itself), and the backoff delays. -/
structure BrowserTrace : Type where
  opens : List Nat := []
  closes : List Nat := []
  delays : List ℚ := []
deriving DecidableEq

/-- The success dict of `scrape_with_browser`
(`title.strip() if title else ""`). -/
def browserSuccess (cfg : Config) (doc : Html) (title : List Char) : ScrapeOutcome :=
  let content := clean_html doc
  let original_length := content.length
  let t := truncateContent cfg.max_content_length content
  { status := .success, method := "browser".toList,
    title := if title = [] then [] else stripList title,
    content := t.1, length := t.1.length,
    original_length := some original_length, truncated := some t.2 }

/-- The retry loop of `scrape_with_browser`.  `wait_time` only adds the
dynamic-content sleep, which leaves no observable mark modelled here. -/
def scrape_with_browser_go (cfg : Config) (env : Nat → BrowserAttempt) :
    Nat → Nat → ScrapeOutcome × BrowserTrace
  | _, 0 => (scrapeError "browser".toList maxRetriesMsg, {})
  | attempt, fuel + 1 =>
    match env attempt with
    | .getBrowserFail msg =>
      (scrapeError "browser".toList msg, {})
    | .newPageFail excName msg =>
      if fuel = 0 then
        (scrapeError "browser".toList (excMsg excName msg), {})
      else
        let r := scrape_with_browser_go cfg env (attempt + 1) fuel
        (r.1, { r.2 with delays := cfg.retry_delay * (attempt + 1 : Nat) :: r.2.delays })
    | .gotoTimeout =>
      if fuel = 0 then
        (scrapeError "browser".toList (browserTimeoutMsg cfg),
         { opens := [attempt], closes := [attempt] })
      else
        let r := scrape_with_browser_go cfg env (attempt + 1) fuel
        (r.1, { opens := attempt :: r.2.opens, closes := attempt :: r.2.closes,
                delays := cfg.retry_delay * (attempt + 1 : Nat) :: r.2.delays })
    | .pageFail excName msg =>
      if fuel = 0 then
        (scrapeError "browser".toList (excMsg excName msg),
         { opens := [attempt], closes := [attempt] })
      else
        let r := scrape_with_browser_go cfg env (attempt + 1) fuel
        (r.1, { opens := attempt :: r.2.opens, closes := attempt :: r.2.closes,
                delays := cfg.retry_delay * (attempt + 1 : Nat) :: r.2.delays })
    | .ok doc title =>
      (browserSuccess cfg doc title, { opens := [attempt], closes := [attempt] })

/-- `scrape_with_browser(url, wait_time=3)` against the browser behaviour
`env`.  The URL and `wait_time` feed only the navigation and the sleep. -/
def scrape_with_browser (cfg : Config) (env : Nat → BrowserAttempt) : ScrapeOutcome × BrowserTrace :=
  scrape_with_browser_go cfg env 0 cfg.max_retries

/-- The pydantic `ScrapeConfig` model (`method` defaults to `"requests"`,
`wait_time` to `3`, validated into `[0, 30]`). -/
inductive ScrapeMethod : Type
  | requests
  | browser
deriving DecidableEq

structure ScrapeConfig : Type where
  url : List Char
  method : ScrapeMethod := .requests
  wait_time : Nat := 3

/-- One `scrape_pages` batch item together with the behaviour of the outside
world for it (whichever strategy its `method` selects). -/
structure ScrapeItem : Type where
  config : ScrapeConfig
  fetchEnv : Nat → FetchAttempt := fun _ => .timeout
  browserEnv : Nat → BrowserAttempt := fun _ => .gotoTimeout

/-- The loop body of `scrape_pages`: dispatch on `method`
(`wait_time` is forced to `0` for the requests method). -/
def scrapeItemRun (cfg : Config) (it : ScrapeItem) : ScrapeOutcome :=
  match it.config.method with
  | .requests => (scrape_with_requests cfg it.config.url it.fetchEnv).1
  | .browser => (scrape_with_browser cfg it.browserEnv).1

/-- `scrape_pages(configs)` from `src/searxng_mcp/scraper.py`. -/
def scrape_pages (cfg : Config) (items : List ScrapeItem) :
    List (List Char × ScrapeOutcome) :=
  items.foldl (fun acc it => insertAssoc it.config.url (scrapeItemRun cfg it) acc) []

/-! ## The standalone MCP tool functions (`src/server.py`)

`server.py` re-implements search and scrape with hardcoded constants and
does not import the `searxng_mcp` package: no clamping of `num_results`,
no retry loop, `config["query"]` instead of `config.get("query")`, and
success scrape outcomes without `original_length`/`truncated`. -/

def SERVER_REQUESTS_TIMEOUT : Nat := 10
def SERVER_BROWSER_TIMEOUT : Nat := 30000
def SERVER_MAX_CONTENT_LENGTH : Nat := 10000
def SERVER_SEARXNG_URL : List Char := "http://localhost:8080".toList

/-- The per-item outcome of `server.py`'s `search_web` body: a single
request (no retries), `num_results` applied unclamped as a raw slice bound. -/
def serverSearchOutcome (attempt : HttpAttempt) (numResults : Int) : SearchOutcome :=
  match attempt with
  | .ok raws =>
    let formatted := (pySliceTo raws numResults).map formatHit
    { status := .success, count := formatted.length, results := formatted }
  | .timeout =>
    { status := .error, error := some "Request timed out after 10 seconds".toList,
      count := 0, results := [] }
  | .connError =>
    { status := .error,
      error := some ("Failed to connect to SearXNG at ".toList ++ SERVER_SEARXNG_URL),
      count := 0, results := [] }
  | .httpError code =>
    { status := .error, error := some (httpErrorMsg code), count := 0, results := [] }
  | .invalidJson msg =>
    { status := .error, error := some (invalidJsonMsg msg), count := 0, results := [] }
  | .otherError msg =>
    { status := .error, error := some (unexpectedErrMsg msg), count := 0, results := [] }

/-- `server.py`'s `search_web` tool.  `query = config["query"]` sits outside
the per-item `try`, so a missing key raises `KeyError` out of the tool
function, aborting the batch (modelled as `Except.error`); every item with
the key present — an empty query included — issues one HTTP request.
Returns the results dict and the number of requests issued. -/
def server_search_web_go (acc : List (List Char × SearchOutcome)) (requests : Nat) :
    List (QueryConfig × HttpAttempt) →
      Except (List Char) (List (List Char × SearchOutcome) × Nat)
  | [] => .ok (acc, requests)
  | item :: rest =>
    match item.1.query with
    | none => .error "KeyError: query".toList
    | some q =>
      let numResults := item.1.num_results.getD 5
      server_search_web_go (insertAssoc q (serverSearchOutcome item.2 numResults) acc)
        (requests + 1) rest

def server_search_web (items : List (QueryConfig × HttpAttempt)) :
    Except (List Char) (List (List Char × SearchOutcome) × Nat) :=
  server_search_web_go [] 0 items

/-- How the browser path of `server.py`'s `scrape_pages` goes for one item.
Only `get_browser()` raises `RuntimeError`; a navigation timeout or any
other fault after `new_page` lands in the generic `except Exception`
handler (there is no `asyncio.TimeoutError` case in `server.py`). -/
inductive ServerBrowserAttempt : Type
  | getBrowserFail (msg : List Char)
  | newPageFail (excName msg : List Char)
  | pageFail (excName msg : List Char)
  | ok (doc : Html) (title : List Char)
deriving Inhabited

/-- One `server.py` scrape item with its single-attempt world behaviour. -/
structure ServerScrapeItem : Type where
  config : ScrapeConfig
  fetch : FetchAttempt := .timeout
  browser : ServerBrowserAttempt := .getBrowserFail []

/-- The success dict of the static path in `server.py`: no
`original_length`, no `truncated`. -/
def serverRequestsSuccess (doc : Html) : ScrapeOutcome :=
  let title := docTitle doc
  let content := clean_html doc
  let c := (truncateContent SERVER_MAX_CONTENT_LENGTH content).1
  { status := .success, method := "requests".toList, title := title,
    content := c, length := c.length }

/-- The success dict of the browser path in `server.py`. -/
def serverBrowserSuccess (doc : Html) (title : List Char) : ScrapeOutcome :=
  let content := clean_html doc
  let c := (truncateContent SERVER_MAX_CONTENT_LENGTH content).1
  { status := .success, method := "browser".toList,
    title := if title = [] then [] else stripList title,
    content := c, length := c.length }

/-- The outcome of one item of `server.py`'s `scrape_pages` (the body of the
per-item `try/except` chain). -/
def serverItemOutcome (it : ServerScrapeItem) : ScrapeOutcome :=
  match it.config.method with
  | .requests =>
    match it.fetch with
    | .ok doc => serverRequestsSuccess doc
    | .timeout => scrapeError "requests".toList "Request timed out after 10 seconds".toList
    | .connError => scrapeError "requests".toList (connectMsg it.config.url)
    | .httpError code => scrapeError "requests".toList (httpErrorMsg code)
    | .otherError excName msg => scrapeError "requests".toList (excMsg excName msg)
  | .browser =>
    match it.browser with
    | .getBrowserFail msg => scrapeError "browser".toList msg
    | .newPageFail excName msg => scrapeError "browser".toList (excMsg excName msg)
    | .pageFail excName msg => scrapeError "browser".toList (excMsg excName msg)
    | .ok doc title => serverBrowserSuccess doc title

/-- Whether this item's iteration got past `browser.new_page(...)` — exactly
the iterations whose `finally: await page.close()` has a page to close. -/
def serverItemOpensPage (it : ServerScrapeItem) : Bool :=
  match it.config.method with
  | .requests => false
  | .browser =>
    match it.browser with
    | .getBrowserFail _ => false
    | .newPageFail _ _ => false
    | .pageFail _ _ => true
    | .ok _ _ => true

/-- The loop body of `server.py`'s `scrape_pages` for the item at position
`idx`: the outcome plus the page open/close events it performed (pages are
identified by the item position; the inner `try/finally` closes the page on
success and on fault alike). -/
def serverScrapeStep (idx : Nat) (it : ServerScrapeItem) :
    ScrapeOutcome × List Nat × List Nat :=
  (serverItemOutcome it,
   if serverItemOpensPage it then [idx] else [],
   if serverItemOpensPage it then [idx] else [])

/-- `server.py`'s `scrape_pages` tool: every fault is handled inside the
per-item `try`, so the whole batch always produces a dict; also reports the
page opens/closes for the resource-release law. -/
def server_scrape_pages_go (idx : Nat) (acc : List (List Char × ScrapeOutcome)) :
    List ServerScrapeItem → List (List Char × ScrapeOutcome) × List Nat × List Nat
  | [] => (acc, [], [])
  | it :: rest =>
    let s := serverScrapeStep idx it
    let r := server_scrape_pages_go (idx + 1) (insertAssoc it.config.url s.1 acc) rest
    (r.1, s.2.1 ++ r.2.1, s.2.2 ++ r.2.2)

def server_scrape_pages (items : List ServerScrapeItem) :
    List (List Char × ScrapeOutcome) × List Nat × List Nat :=
  server_scrape_pages_go 0 [] items

/-- The `asyncio.sleep(RETRY_DELAY * (attempt + 1))` delays inserted by a run
that starts at attempt `a` and retries `n` more times. -/
def backoffDelays (d : ℚ) (a : Nat) : Nat → List ℚ
  | 0 => []
  | f + 1 => d * ((a + 1 : Nat) : ℚ) :: backoffDelays d (a + 1) f

/-! # Theorems

## The dict layer: insertion order, key uniqueness, last write wins -/

section DictLayer

variable {κ α : Type} [DecidableEq κ]

theorem insertAssoc_keys (k : κ) (v : α) (d : List (κ × α)) :
    (insertAssoc k v d).map Prod.fst =
      if k ∈ d.map Prod.fst then d.map Prod.fst else d.map Prod.fst ++ [k] := by
  induction d with
  | nil => simp [insertAssoc]
  | cons p rest ih =>
    by_cases h : p.1 = k
    · simp [insertAssoc, h]
    · simp only [insertAssoc, if_neg h, List.map_cons, ih]
      by_cases hk : k ∈ rest.map Prod.fst
      · simp [hk, Ne.symm h]
      · simp [hk, Ne.symm h]

theorem lookupAssoc_insert_self (k : κ) (v : α) (d : List (κ × α)) :
    lookupAssoc k (insertAssoc k v d) = some v := by
  induction d with
  | nil => simp [insertAssoc, lookupAssoc]
  | cons p rest ih =>
    by_cases h : p.1 = k
    · simp [insertAssoc, h, lookupAssoc]
    · simp [insertAssoc, h, lookupAssoc, ih]

theorem lookupAssoc_insert_ne {k' k : κ} (h : k' ≠ k) (v : α) (d : List (κ × α)) :
    lookupAssoc k (insertAssoc k' v d) = lookupAssoc k d := by
  induction d with
  | nil => simp [insertAssoc, lookupAssoc, h]
  | cons p rest ih =>
    by_cases hp : p.1 = k'
    · simp [insertAssoc, hp, lookupAssoc, h]
    · simp [insertAssoc, hp, lookupAssoc, ih]

theorem mem_newKeys (x : κ) : ∀ (seen ks : List κ),
    x ∈ newKeys seen ks ↔ x ∈ ks ∧ x ∉ seen := by
  intro seen ks
  induction ks generalizing seen with
  | nil => simp [newKeys]
  | cons k ks ih =>
    by_cases hk : k ∈ seen
    · rw [newKeys, if_pos hk, ih]
      by_cases hx : x = k
      · subst hx; simp [hk]
      · simp [hx]
    · rw [newKeys, if_neg hk]
      by_cases hx : x = k
      · subst hx; simp [hk]
      · simp only [List.mem_cons, hx, false_or, ih, List.mem_cons]

theorem newKeys_nodup : ∀ (seen ks : List κ), (newKeys seen ks).Nodup := by
  intro seen ks
  induction ks generalizing seen with
  | nil => simp [newKeys]
  | cons k ks ih =>
    by_cases hk : k ∈ seen
    · rw [newKeys, if_pos hk]; exact ih seen
    · rw [newKeys, if_neg hk]
      refine List.nodup_cons.mpr ⟨fun hmem => ?_, ih (k :: seen)⟩
      exact ((mem_newKeys k (k :: seen) ks).mp hmem).2 (List.mem_cons_self k seen)

theorem newKeys_sublist : ∀ (seen ks : List κ), (newKeys seen ks).Sublist ks := by
  intro seen ks
  induction ks generalizing seen with
  | nil => simp [newKeys]
  | cons k ks ih =>
    by_cases hk : k ∈ seen
    · rw [newKeys, if_pos hk]; exact (ih seen).cons k
    · rw [newKeys, if_neg hk]; exact (ih (k :: seen)).cons₂ k

theorem newKeys_congr {seen seen' : List κ} (h : ∀ x, x ∈ seen ↔ x ∈ seen') :
    ∀ ks : List κ, newKeys seen ks = newKeys seen' ks := by
  intro ks
  induction ks generalizing seen seen' with
  | nil => simp [newKeys]
  | cons k ks ih =>
    by_cases hk : k ∈ seen
    · rw [newKeys, if_pos hk, newKeys, if_pos ((h k).mp hk)]
      exact ih h
    · rw [newKeys, if_neg hk, newKeys, if_neg (fun hk' => hk ((h k).mpr hk'))]
      refine congrArg _ (ih fun x => ?_)
      simp only [List.mem_cons, h x]

theorem foldl_insert_keys (pairs : List (κ × α)) :
    ∀ d : List (κ × α),
      ((pairs.foldl (fun d p => insertAssoc p.1 p.2 d) d).map Prod.fst)
        = d.map Prod.fst ++ newKeys (d.map Prod.fst) (pairs.map Prod.fst) := by
  induction pairs with
  | nil => simp [newKeys]
  | cons p ps ih =>
    intro d
    rw [List.foldl_cons, ih, insertAssoc_keys]
    by_cases h : p.1 ∈ d.map Prod.fst
    · rw [if_pos h, List.map_cons, newKeys, if_pos h]
    · rw [if_neg h, List.map_cons, newKeys, if_neg h,
        newKeys_congr
          (show ∀ x, x ∈ d.map Prod.fst ++ [p.1] ↔ x ∈ p.1 :: d.map Prod.fst from
            fun x => by simp [or_comm])
          (ps.map Prod.fst), List.append_assoc]
      rfl

theorem foldl_insert_lookup (k : κ) (pairs : List (κ × α)) :
    ∀ d : List (κ × α),
      lookupAssoc k (pairs.foldl (fun d p => insertAssoc p.1 p.2 d) d)
        = ((pairs.filter fun p => decide (p.1 = k)).getLast?).elim
            (lookupAssoc k d) (fun q => some q.2) := by
  induction pairs with
  | nil => simp
  | cons p ps ih =>
    intro d
    rw [List.foldl_cons, ih]
    cases hlast : ((ps.filter fun p => decide (p.1 = k)).getLast?) with
    | some q =>
      have hne : (ps.filter fun p => decide (p.1 = k)) ≠ [] := by
        intro hnil; rw [hnil] at hlast; cases hlast
      obtain ⟨a, l, hal⟩ := List.exists_cons_of_ne_nil hne
      have hfilter : (((p :: ps).filter fun p => decide (p.1 = k)).getLast?) = some q := by
        by_cases hp : p.1 = k
        · rw [List.filter_cons_of_pos (by simp [hp]), hal, List.getLast?_cons_cons, ← hal, hlast]
        · rw [List.filter_cons_of_neg (by simp [hp]), hlast]
      rw [hfilter]
      rfl
    | none =>
      have hnil : (ps.filter fun p => decide (p.1 = k)) = [] := by
        rcases hf : (ps.filter fun p => decide (p.1 = k)) with _ | ⟨a, l⟩
        · exact hf
        · exfalso
          rw [hf] at hlast
          have hb : (a :: l).getLast? = some ((a :: l).getLast (by simp)) :=
            List.getLast?_eq_getLast _ _
          rw [hb] at hlast; cases hlast
      by_cases hp : p.1 = k
      · rw [List.filter_cons_of_pos (by simp [hp]), hnil]
        simp only [List.getLast?_singleton, Option.elim]
        rw [← hp, lookupAssoc_insert_self]
      · rw [List.filter_cons_of_neg (by simp [hp]), hnil]
        simp only [List.getLast?_nil, Option.elim]
        exact lookupAssoc_insert_ne hp p.2 d

theorem buildDict_keys (pairs : List (κ × α)) :
    (buildDict pairs).map Prod.fst = newKeys [] (pairs.map Prod.fst) := by
  rw [buildDict, foldl_insert_keys]; rfl

theorem buildDict_lookup (k : κ) (pairs : List (κ × α)) :
    lookupAssoc k (buildDict pairs)
      = ((pairs.filter fun p => decide (p.1 = k)).getLast?).map Prod.snd := by
  rw [buildDict, foldl_insert_lookup]
  cases ((pairs.filter fun p => decide (p.1 = k)).getLast?) <;> simp [lookupAssoc]

end DictLayer

/-! ## Orchestrator shape lemmas -/

theorem search_web_foldl (cfg : Config) :
    ∀ (items : List (QueryConfig × (Nat → HttpAttempt)))
      (acc : List (List Char × SearchOutcome) × Nat),
      (items.foldl (fun acc item =>
          let r := searchItemRun cfg item
          (insertAssoc (searchItemKey item.1) r.1 acc.1, acc.2 + r.2.attempts)) acc)
        = (items.foldl
            (fun d item => insertAssoc (searchItemKey item.1) (searchItemRun cfg item).1 d)
            acc.1,
           acc.2 + (items.map fun item => (searchItemRun cfg item).2.attempts).sum) := by
  intro items
  induction items with
  | nil => intro acc; simp
  | cons it its ih =>
    intro acc
    simp only [List.foldl_cons, List.map_cons, List.sum_cons, ih]
    simp [Nat.add_assoc]

theorem search_web_eq (cfg : Config) (items : List (QueryConfig × (Nat → HttpAttempt))) :
    search_web cfg items
      = (buildDict (items.map fun it => (searchItemKey it.1, (searchItemRun cfg it).1)),
         (items.map fun it => (searchItemRun cfg it).2.attempts).sum) := by
  rw [search_web, search_web_foldl, buildDict, List.foldl_map]
  simp

theorem scrape_pages_eq (cfg : Config) (items : List ScrapeItem) :
    scrape_pages cfg items
      = buildDict (items.map fun it => (it.config.url, scrapeItemRun cfg it)) := by
  rw [scrape_pages, buildDict, List.foldl_map]

/-- Claim C1: one call of the batch search operation or the batch scrape
operation returns a mapping with exactly one outcome record per distinct item
key (the key list is duplicate-free and is exactly the first occurrences of
the item keys in input order), a duplicate query/URL overwrites the earlier
entry (the value under a key is the outcome of the *last* item carrying that
key), and the batch functions are total mappings — a per-item error is an
outcome record, never a fault of the batch call. -/
theorem C1_batch_mapping (cfg : Config)
    (searchItems : List (QueryConfig × (Nat → HttpAttempt)))
    (scrapeItems : List ScrapeItem) :
    ((search_web cfg searchItems).1.map Prod.fst
        = newKeys [] (searchItems.map fun it => searchItemKey it.1))
    ∧ ((search_web cfg searchItems).1.map Prod.fst).Nodup
    ∧ ((search_web cfg searchItems).1.map Prod.fst).Sublist
        (searchItems.map fun it => searchItemKey it.1)
    ∧ (∀ k, k ∈ (search_web cfg searchItems).1.map Prod.fst
        ↔ k ∈ searchItems.map fun it => searchItemKey it.1)
    ∧ (∀ k, lookupAssoc k (search_web cfg searchItems).1
        = (((searchItems.map fun it => (searchItemKey it.1, (searchItemRun cfg it).1)).filter
              fun p => decide (p.1 = k)).getLast?).map Prod.snd)
    ∧ ((scrape_pages cfg scrapeItems).map Prod.fst
        = newKeys [] (scrapeItems.map fun it => it.config.url))
    ∧ ((scrape_pages cfg scrapeItems).map Prod.fst).Nodup
    ∧ ((scrape_pages cfg scrapeItems).map Prod.fst).Sublist
        (scrapeItems.map fun it => it.config.url)
    ∧ (∀ k, k ∈ (scrape_pages cfg scrapeItems).map Prod.fst
        ↔ k ∈ scrapeItems.map fun it => it.config.url)
    ∧ (∀ k, lookupAssoc k (scrape_pages cfg scrapeItems)
        = (((scrapeItems.map fun it => (it.config.url, scrapeItemRun cfg it)).filter
              fun p => decide (p.1 = k)).getLast?).map Prod.snd) := by
  have hs : (search_web cfg searchItems).1.map Prod.fst
      = newKeys [] (searchItems.map fun it => searchItemKey it.1) := by
    rw [search_web_eq, buildDict_keys, List.map_map]
    rfl
  have hp : (scrape_pages cfg scrapeItems).map Prod.fst
      = newKeys [] (scrapeItems.map fun it => it.config.url) := by
    rw [scrape_pages_eq, buildDict_keys, List.map_map]
    rfl
  refine ⟨hs, ?_, ?_, ?_, ?_, hp, ?_, ?_, ?_, ?_⟩
  · rw [hs]; exact newKeys_nodup _ _
  · rw [hs]; exact newKeys_sublist _ _
  · intro k; rw [hs, mem_newKeys]; simp
  · intro k; rw [search_web_eq]; exact buildDict_lookup k _
  · rw [hp]; exact newKeys_nodup _ _
  · rw [hp]; exact newKeys_sublist _ _
  · intro k; rw [hp, mem_newKeys]; simp
  · intro k; rw [scrape_pages_eq]; exact buildDict_lookup k _

/-! ## C2 — missing/empty query -/

/-- Claim C2 counterexample: the claim fails at the external tool boundary.
In `server.py`'s `search_web`, a missing `query` key raises `KeyError` out of
the tool (no sentinel record, batch aborted), and an item with an *empty*
query is passed to the executor — one HTTP request is issued. -/
theorem C2_counterexample :
    server_search_web [({ query := none }, HttpAttempt.timeout)]
        = .error "KeyError: query".toList
    ∧ (server_search_web [({ query := some [] }, HttpAttempt.timeout)]).toOption.map Prod.snd
        = some 1 :=
  ⟨rfl, rfl⟩

/-- Claim C2 (amended): at the orchestrator (`searxng_mcp.search.search_web`),
an item whose query is missing or empty is recorded as an error outcome under
the sentinel key without invoking the search executor (it contributes zero
HTTP requests), and processing of the remaining items continues — the batch
result is still the full mapping over all items.  At the `server.py` tool
boundary this does not hold (see the counterexample). -/
theorem C2_empty_query_orchestrator (cfg : Config) (c : QueryConfig)
    (env : Nat → HttpAttempt)
    (pre post : List (QueryConfig × (Nat → HttpAttempt)))
    (hbad : c.query = none ∨ c.query = some []) :
    searchItemKey c = missingQueryKey
    ∧ searchItemRun cfg (c, env) = (queryRequiredOutcome, {})
    ∧ (search_web cfg (pre ++ (c, env) :: post)).2
        = (search_web cfg pre).2 + (search_web cfg post).2
    ∧ (search_web cfg (pre ++ (c, env) :: post)).1
        = buildDict ((pre ++ (c, env) :: post).map
            fun it => (searchItemKey it.1, (searchItemRun cfg it).1)) := by
  have hkey : searchItemKey c = missingQueryKey := by
    rcases hbad with h | h <;> simp [searchItemKey, h]
  have hrun : searchItemRun cfg (c, env) = (queryRequiredOutcome, {}) := by
    rcases hbad with h | h <;> simp [searchItemRun, h]
  refine ⟨hkey, hrun, ?_, ?_⟩
  · rw [search_web_eq, search_web_eq, search_web_eq]
    simp [hrun]
  · rw [search_web_eq]

theorem C2_empty_query_orchestrator_witness :
    searchItemKey { query := none } = missingQueryKey
    ∧ searchItemRun defaultConfig ({ query := none }, fun _ => HttpAttempt.timeout)
        = (queryRequiredOutcome, {})
    ∧ (search_web defaultConfig
          ([] ++ ({ query := none }, fun _ => HttpAttempt.timeout) :: [])).2
        = (search_web defaultConfig []).2 + (search_web defaultConfig []).2
    ∧ (search_web defaultConfig
          ([] ++ ({ query := none }, fun _ => HttpAttempt.timeout) :: [])).1
        = buildDict ((([] ++ ({ query := none }, fun _ => HttpAttempt.timeout) :: [])
              : List (QueryConfig × (Nat → HttpAttempt))).map
            fun it => (searchItemKey it.1, (searchItemRun defaultConfig it).1)) :=
  C2_empty_query_orchestrator defaultConfig { query := none }
    (fun _ => HttpAttempt.timeout) [] [] (Or.inl rfl)

/-! ## C3 — num_results clamping -/

/-- Claim C3 counterexample: the clamping does not apply at the external tool
boundary.  `server.py`'s `search_web` slices with the raw `num_results`:
requesting 1000 against a backend answering 60 hits yields 60 results even
though the ceiling is 50. -/
theorem C3_counterexample :
    ((server_search_web [({ query := some ['q'], num_results := some 1000 },
          HttpAttempt.ok (List.replicate 60 {}))]).toOption.map
        fun p => p.1.map fun e => e.2.count) = some [60]
    ∧ defaultConfig.max_num_results = 50
    ∧ 50 < 60 :=
  ⟨rfl, rfl, by decide⟩

/-- Claim C3 (amended): in the search executor (`search_query`, hence every
search that goes through the `searxng_mcp` package), `num_results` is clamped
into `[1, max_num_results]` before use: the results are the first
`clamp(num_results)` backend hits in backend order, requesting less than 1
clamps to 1, requesting above the ceiling clamps to the ceiling, and
requesting an in-range `n` with at least `n` backend hits yields exactly `n`
results.  At the `server.py` tool boundary the raw value is used unclamped
(see the counterexample). -/
theorem C3_num_results_clamped (cfg : Config) (env : Nat → HttpAttempt)
    (q : List Char) (n : Int) (hits : List RawHit)
    (hretries : 1 ≤ cfg.max_retries) (henv : env 0 = HttpAttempt.ok hits) :
    (search_query cfg env q n).1.results
        = (hits.take (validate_num_results cfg.max_num_results n).toNat).map formatHit
    ∧ (search_query cfg env q n).1.count
        = min (validate_num_results cfg.max_num_results n).toNat hits.length
    ∧ (1 ≤ cfg.max_num_results →
        1 ≤ (validate_num_results cfg.max_num_results n).toNat
        ∧ (validate_num_results cfg.max_num_results n).toNat ≤ cfg.max_num_results)
    ∧ (n < 1 → validate_num_results cfg.max_num_results n = 1)
    ∧ (n > (cfg.max_num_results : Int) →
        validate_num_results cfg.max_num_results n = (cfg.max_num_results : Int))
    ∧ (1 ≤ n → n ≤ (cfg.max_num_results : Int) → n.toNat ≤ hits.length →
        (search_query cfg env q n).1.count = n.toNat) := by
  obtain ⟨m, hm⟩ : ∃ m, cfg.max_retries = m + 1 :=
    ⟨cfg.max_retries - 1, by omega⟩
  have hrun : (search_query cfg env q n).1
      = { status := .success,
          count := ((hits.take (validate_num_results cfg.max_num_results n).toNat).map
            formatHit).length,
          results := (hits.take (validate_num_results cfg.max_num_results n).toNat).map
            formatHit } := by
    rw [search_query, hm, search_query_go, henv]
  have hcount : (search_query cfg env q n).1.count
      = min (validate_num_results cfg.max_num_results n).toNat hits.length := by
    rw [hrun]
    simp [List.length_take]
  refine ⟨by rw [hrun], hcount, ?_, ?_, ?_, ?_⟩
  · intro hceil
    rw [validate_num_results]
    split
    · omega
    · split <;> omega
  · intro hlt; rw [validate_num_results, if_pos hlt]
  · intro hgt
    rw [validate_num_results]
    rw [if_neg (by omega), if_pos hgt]
  · intro h1 h2 h3
    have hv : validate_num_results cfg.max_num_results n = n := by
      rw [validate_num_results, if_neg (by omega), if_neg (by omega)]
    rw [hcount, hv]
    omega

theorem C3_num_results_clamped_witness :
    (search_query defaultConfig (fun _ => HttpAttempt.ok (List.replicate 20 {})) ['q'] 7).1.results
        = ((List.replicate 20 ({} : RawHit)).take
            (validate_num_results defaultConfig.max_num_results 7).toNat).map formatHit
    ∧ (search_query defaultConfig (fun _ => HttpAttempt.ok (List.replicate 20 {})) ['q'] 7).1.count
        = min (validate_num_results defaultConfig.max_num_results 7).toNat
            (List.replicate 20 ({} : RawHit)).length
    ∧ (1 ≤ defaultConfig.max_num_results →
        1 ≤ (validate_num_results defaultConfig.max_num_results 7).toNat
        ∧ (validate_num_results defaultConfig.max_num_results 7).toNat
          ≤ defaultConfig.max_num_results)
    ∧ ((7 : Int) < 1 → validate_num_results defaultConfig.max_num_results 7 = 1)
    ∧ ((7 : Int) > (defaultConfig.max_num_results : Int) →
        validate_num_results defaultConfig.max_num_results 7
          = (defaultConfig.max_num_results : Int))
    ∧ (1 ≤ (7 : Int) → (7 : Int) ≤ (defaultConfig.max_num_results : Int) →
        (7 : Int).toNat ≤ (List.replicate 20 ({} : RawHit)).length →
        (search_query defaultConfig (fun _ => HttpAttempt.ok (List.replicate 20 {})) ['q'] 7).1.count
          = (7 : Int).toNat) :=
  C3_num_results_clamped defaultConfig (fun _ => HttpAttempt.ok (List.replicate 20 {}))
    ['q'] 7 (List.replicate 20 {}) (by decide) rfl

/-! ## C4 — truncation law -/

theorem truncateContent_gt {M : Nat} {c : List Char} (h : c.length > M) :
    truncateContent M c = (c.take M ++ "...".toList, true)
    ∧ (truncateContent M c).1.length = M + "...".toList.length := by
  have h1 : truncateContent M c = (c.take M ++ "...".toList, true) := by
    rw [truncateContent, if_pos (by omega)]
  refine ⟨h1, ?_⟩
  rw [h1]
  simp [List.length_take]
  omega

theorem truncateContent_le {M : Nat} {c : List Char} (h : c.length ≤ M) :
    truncateContent M c = (c, false) := by
  rw [truncateContent, if_neg (by omega)]

/-- Claim C4 counterexample: at the external boundary (`server.py`'s
`scrape_pages`), the success outcome carries neither a `truncated` nor an
`original_length` key. -/
theorem C4_counterexample :
    ((server_scrape_pages
          [{ config := { url := ['u'] }
             , fetch := FetchAttempt.ok (Html.text ['h', 'i']) }]).1.map
        fun p => (p.2.status, p.2.truncated, p.2.original_length))
      = [(Status.success, (none : Option Bool), (none : Option Nat))] := rfl

/-- Claim C4 (amended): for every scrape through the strategies of
`scraper.py` (static `scrape_with_requests` and rendered
`scrape_with_browser`), with normalised content length `L` and limit `M`:
if `L > M` the returned content is the first `M` characters plus the ellipsis
marker (length `M + 3`), `truncated = true` and `original_length = L`; if
`L ≤ M` the content is unchanged and `truncated = false`.  The `server.py`
boundary truncates the content identically but omits `truncated` and
`original_length` from its success outcome (see the counterexample). -/
theorem C4_truncation_law (cfg : Config) (url : List Char)
    (envR : Nat → FetchAttempt) (envB : Nat → BrowserAttempt)
    (doc doc' : Html) (btitle : List Char)
    (hretries : 1 ≤ cfg.max_retries)
    (hR : envR 0 = FetchAttempt.ok doc)
    (hB : envB 0 = BrowserAttempt.ok doc' btitle) :
    ((scrape_with_requests cfg url envR).1 = requestsSuccess cfg doc)
    ∧ ((scrape_with_browser cfg envB).1 = browserSuccess cfg doc' btitle)
    ∧ (∀ d : Html,
        (requestsSuccess cfg d).status = .success
        ∧ (requestsSuccess cfg d).original_length = some (clean_html d).length
        ∧ (requestsSuccess cfg d).length = (requestsSuccess cfg d).content.length
        ∧ ((clean_html d).length > cfg.max_content_length →
            (requestsSuccess cfg d).content
                = (clean_html d).take cfg.max_content_length ++ "...".toList
            ∧ (requestsSuccess cfg d).content.length
                = cfg.max_content_length + "...".toList.length
            ∧ (requestsSuccess cfg d).truncated = some true)
        ∧ ((clean_html d).length ≤ cfg.max_content_length →
            (requestsSuccess cfg d).content = clean_html d
            ∧ (requestsSuccess cfg d).truncated = some false))
    ∧ (∀ (d : Html) (t : List Char),
        (browserSuccess cfg d t).status = .success
        ∧ (browserSuccess cfg d t).original_length = some (clean_html d).length
        ∧ (browserSuccess cfg d t).length = (browserSuccess cfg d t).content.length
        ∧ ((clean_html d).length > cfg.max_content_length →
            (browserSuccess cfg d t).content
                = (clean_html d).take cfg.max_content_length ++ "...".toList
            ∧ (browserSuccess cfg d t).content.length
                = cfg.max_content_length + "...".toList.length
            ∧ (browserSuccess cfg d t).truncated = some true)
        ∧ ((clean_html d).length ≤ cfg.max_content_length →
            (browserSuccess cfg d t).content = clean_html d
            ∧ (browserSuccess cfg d t).truncated = some false)) := by
  obtain ⟨m, hm⟩ : ∃ m, cfg.max_retries = m + 1 :=
    ⟨cfg.max_retries - 1, by omega⟩
  refine ⟨?_, ?_, ?_, ?_⟩
  · rw [scrape_with_requests, hm, scrape_with_requests_go, hR]
  · rw [scrape_with_browser, hm, scrape_with_browser_go, hB]
  · intro d
    refine ⟨rfl, rfl, rfl, fun hgt => ?_, fun hle => ?_⟩
    · obtain ⟨h1, h2⟩ := truncateContent_gt (M := cfg.max_content_length) hgt
      refine ⟨?_, ?_, ?_⟩
      · show (truncateContent cfg.max_content_length (clean_html d)).1 = _
        rw [h1]
      · show (truncateContent cfg.max_content_length (clean_html d)).1.length = _
        exact h2
      · show some (truncateContent cfg.max_content_length (clean_html d)).2 = some true
        rw [h1]
    · have h1 := truncateContent_le (M := cfg.max_content_length) hle
      refine ⟨?_, ?_⟩
      · show (truncateContent cfg.max_content_length (clean_html d)).1 = _
        rw [h1]
      · show some (truncateContent cfg.max_content_length (clean_html d)).2 = some false
        rw [h1]
  · intro d t
    refine ⟨rfl, rfl, rfl, fun hgt => ?_, fun hle => ?_⟩
    · obtain ⟨h1, h2⟩ := truncateContent_gt (M := cfg.max_content_length) hgt
      refine ⟨?_, ?_, ?_⟩
      · show (truncateContent cfg.max_content_length (clean_html d)).1 = _
        rw [h1]
      · show (truncateContent cfg.max_content_length (clean_html d)).1.length = _
        exact h2
      · show some (truncateContent cfg.max_content_length (clean_html d)).2 = some true
        rw [h1]
    · have h1 := truncateContent_le (M := cfg.max_content_length) hle
      refine ⟨?_, ?_⟩
      · show (truncateContent cfg.max_content_length (clean_html d)).1 = _
        rw [h1]
      · show some (truncateContent cfg.max_content_length (clean_html d)).2 = some false
        rw [h1]

theorem C4_truncation_law_witness :
    (scrape_with_requests defaultConfig ['u']
        (fun _ => FetchAttempt.ok (Html.text ['h', 'i']))).1
      = requestsSuccess defaultConfig (Html.text ['h', 'i']) :=
  (C4_truncation_law defaultConfig ['u']
    (fun _ => FetchAttempt.ok (Html.text ['h', 'i']))
    (fun _ => BrowserAttempt.ok (Html.text ['h', 'i']) ['T'])
    (Html.text ['h', 'i']) (Html.text ['h', 'i']) ['T']
    (by decide) rfl rfl).1

/-! ## C5 / C6 — retry count, linear backoff, exhaustion message -/

theorem backoffDelays_eq_range (d : ℚ) :
    ∀ (n a : Nat), backoffDelays d a n
      = (List.range n).map fun i => d * ((a + 1 + i : Nat) : ℚ) := by
  intro n
  induction n with
  | zero => intro a; rfl
  | succ n ih =>
    intro a
    rw [backoffDelays, ih, List.range_succ_eq_map, List.map_cons, List.map_map]
    refine congrArg₂ _ (by norm_num) (List.map_congr_left fun i _ => ?_)
    show d * ((a + 1 + 1 + i : Nat) : ℚ) = d * ((a + 1 + (i + 1) : Nat) : ℚ)
    congr 2
    omega

theorem backoffDelays_le {d : ℚ} (hd : 0 ≤ d) :
    ∀ (n a : Nat) (x : ℚ), x ∈ backoffDelays d a n → d * ((a + 1 : Nat) : ℚ) ≤ x := by
  intro n
  induction n with
  | zero => intro a x hx; cases hx
  | succ n ih =>
    intro a x hx
    rcases List.mem_cons.mp hx with rfl | hx
    · exact le_refl _
    · refine le_trans ?_ (ih (a + 1) x hx)
      have : ((a + 1 : Nat) : ℚ) ≤ ((a + 1 + 1 : Nat) : ℚ) := by
        exact_mod_cast Nat.le_succ _
      exact mul_le_mul_of_nonneg_left this hd

theorem backoffDelays_pairwise {d : ℚ} (hd : 0 ≤ d) :
    ∀ (n a : Nat), (backoffDelays d a n).Pairwise (· ≤ ·) := by
  intro n
  induction n with
  | zero => intro a; exact List.Pairwise.nil
  | succ n ih =>
    intro a
    refine List.pairwise_cons.mpr ⟨fun x hx => ?_, ih (a + 1)⟩
    refine le_trans ?_ (backoffDelays_le hd n (a + 1) x hx)
    have : ((a + 1 : Nat) : ℚ) ≤ ((a + 1 + 1 : Nat) : ℚ) := by
      exact_mod_cast Nat.le_succ _
    exact mul_le_mul_of_nonneg_left this hd

theorem scrape_requests_go_timeout (cfg : Config) (url : List Char) :
    ∀ (fuel attempt : Nat), 1 ≤ fuel →
      scrape_with_requests_go cfg url (fun _ => FetchAttempt.timeout) attempt fuel
        = (scrapeError "requests".toList (requestTimeoutMsg cfg),
           { attempts := fuel, delays := backoffDelays cfg.retry_delay attempt (fuel - 1) }) := by
  intro fuel
  induction fuel with
  | zero => intro attempt h; omega
  | succ f ih =>
    intro attempt _
    rw [scrape_with_requests_go]
    by_cases hf : f = 0
    · subst hf; rfl
    · rw [if_neg hf, ih (attempt + 1) (by omega)]
      obtain ⟨g, rfl⟩ : ∃ g, f = g + 1 := ⟨f - 1, by omega⟩
      rfl

theorem scrape_requests_go_conn (cfg : Config) (url : List Char) :
    ∀ (fuel attempt : Nat), 1 ≤ fuel →
      scrape_with_requests_go cfg url (fun _ => FetchAttempt.connError) attempt fuel
        = (scrapeError "requests".toList (connectMsg url),
           { attempts := fuel, delays := backoffDelays cfg.retry_delay attempt (fuel - 1) }) := by
  intro fuel
  induction fuel with
  | zero => intro attempt h; omega
  | succ f ih =>
    intro attempt _
    rw [scrape_with_requests_go]
    by_cases hf : f = 0
    · subst hf; rfl
    · rw [if_neg hf, ih (attempt + 1) (by omega)]
      obtain ⟨g, rfl⟩ : ∃ g, f = g + 1 := ⟨f - 1, by omega⟩
      rfl

theorem search_go_timeout (cfg : Config) (numResults : Nat) :
    ∀ (fuel attempt : Nat), 1 ≤ fuel →
      search_query_go cfg (fun _ => HttpAttempt.timeout) numResults attempt fuel
        = ({ status := .error, error := some (requestTimeoutMsg cfg),
             count := 0, results := [] },
           { attempts := fuel, delays := backoffDelays cfg.retry_delay attempt (fuel - 1) }) := by
  intro fuel
  induction fuel with
  | zero => intro attempt h; omega
  | succ f ih =>
    intro attempt _
    rw [search_query_go]
    by_cases hf : f = 0
    · subst hf; rfl
    · rw [if_neg hf, ih (attempt + 1) (by omega)]
      obtain ⟨g, rfl⟩ : ∃ g, f = g + 1 := ⟨f - 1, by omega⟩
      rfl

theorem search_go_conn (cfg : Config) (numResults : Nat) :
    ∀ (fuel attempt : Nat), 1 ≤ fuel →
      search_query_go cfg (fun _ => HttpAttempt.connError) numResults attempt fuel
        = ({ status := .error, error := some (searchConnMsg cfg),
             count := 0, results := [] },
           { attempts := fuel, delays := backoffDelays cfg.retry_delay attempt (fuel - 1) }) := by
  intro fuel
  induction fuel with
  | zero => intro attempt h; omega
  | succ f ih =>
    intro attempt _
    rw [search_query_go]
    by_cases hf : f = 0
    · subst hf; rfl
    · rw [if_neg hf, ih (attempt + 1) (by omega)]
      obtain ⟨g, rfl⟩ : ∃ g, f = g + 1 := ⟨f - 1, by omega⟩
      rfl

theorem backoffDelays_zero (d : ℚ) (m : Nat) :
    backoffDelays d 0 m = (List.range m).map fun i => d * ((i + 1 : Nat) : ℚ) := by
  rw [backoffDelays_eq_range]
  refine List.map_congr_left fun i _ => ?_
  congr 2
  omega

/-- Claim C5: a static fetch against an endpoint that times out on every
attempt makes exactly `max_retries` HTTP attempts; the delay inserted before
retry number `i + 1` is `retry_delay * (i + 1)` — linear backoff, hence
monotonically non-decreasing for the (non-negative) configured delay — and
the call returns a timeout error outcome.  The same attempt-count and
backoff law governs the search executor under persistent timeout and under
persistent connection failure. -/
theorem C5_retry_backoff (cfg : Config) (url q : List Char) (n : Int)
    (hretries : 1 ≤ cfg.max_retries) (hd : 0 ≤ cfg.retry_delay) :
    (scrape_with_requests cfg url (fun _ => FetchAttempt.timeout)).2.attempts
        = cfg.max_retries
    ∧ ((scrape_with_requests cfg url (fun _ => FetchAttempt.timeout)).2.delays
        = (List.range (cfg.max_retries - 1)).map fun i => cfg.retry_delay * ((i + 1 : Nat) : ℚ))
    ∧ (scrape_with_requests cfg url (fun _ => FetchAttempt.timeout)).2.delays.Pairwise (· ≤ ·)
    ∧ (scrape_with_requests cfg url (fun _ => FetchAttempt.timeout)).1.status = .error
    ∧ (scrape_with_requests cfg url (fun _ => FetchAttempt.timeout)).1.error
        = some (requestTimeoutMsg cfg)
    ∧ (search_query cfg (fun _ => HttpAttempt.timeout) q n).2
        = { attempts := cfg.max_retries,
            delays := backoffDelays cfg.retry_delay 0 (cfg.max_retries - 1) }
    ∧ (search_query cfg (fun _ => HttpAttempt.timeout) q n).1.status = .error
    ∧ (search_query cfg (fun _ => HttpAttempt.connError) q n).2
        = { attempts := cfg.max_retries,
            delays := backoffDelays cfg.retry_delay 0 (cfg.max_retries - 1) }
    ∧ (search_query cfg (fun _ => HttpAttempt.connError) q n).1.status = .error := by
  have hT := scrape_requests_go_timeout cfg url cfg.max_retries 0 hretries
  have hS := search_go_timeout cfg
    (validate_num_results cfg.max_num_results n).toNat cfg.max_retries 0 hretries
  have hC := search_go_conn cfg
    (validate_num_results cfg.max_num_results n).toNat cfg.max_retries 0 hretries
  refine ⟨?_, ?_, ?_, ?_, ?_, ?_, ?_, ?_, ?_⟩
  · rw [scrape_with_requests, hT]
  · rw [scrape_with_requests, hT, backoffDelays_zero]
  · rw [scrape_with_requests, hT]
    exact backoffDelays_pairwise hd _ _
  · rw [scrape_with_requests, hT]; rfl
  · rw [scrape_with_requests, hT]; rfl
  · rw [search_query, hS]
  · rw [search_query, hS]
  · rw [search_query, hC]
  · rw [search_query, hC]

theorem C5_retry_backoff_witness :
    (scrape_with_requests defaultConfig ['u'] (fun _ => FetchAttempt.timeout)).2.attempts
        = defaultConfig.max_retries
    ∧ ((scrape_with_requests defaultConfig ['u'] (fun _ => FetchAttempt.timeout)).2.delays
        = (List.range (defaultConfig.max_retries - 1)).map
            fun i => defaultConfig.retry_delay * ((i + 1 : Nat) : ℚ))
    ∧ (scrape_with_requests defaultConfig ['u']
        (fun _ => FetchAttempt.timeout)).2.delays.Pairwise (· ≤ ·)
    ∧ (scrape_with_requests defaultConfig ['u'] (fun _ => FetchAttempt.timeout)).1.status
        = .error
    ∧ (scrape_with_requests defaultConfig ['u'] (fun _ => FetchAttempt.timeout)).1.error
        = some (requestTimeoutMsg defaultConfig)
    ∧ (search_query defaultConfig (fun _ => HttpAttempt.timeout) ['q'] 5).2
        = { attempts := defaultConfig.max_retries,
            delays := backoffDelays defaultConfig.retry_delay 0 (defaultConfig.max_retries - 1) }
    ∧ (search_query defaultConfig (fun _ => HttpAttempt.timeout) ['q'] 5).1.status = .error
    ∧ (search_query defaultConfig (fun _ => HttpAttempt.connError) ['q'] 5).2
        = { attempts := defaultConfig.max_retries,
            delays := backoffDelays defaultConfig.retry_delay 0 (defaultConfig.max_retries - 1) }
    ∧ (search_query defaultConfig (fun _ => HttpAttempt.connError) ['q'] 5).1.status = .error :=
  C5_retry_backoff defaultConfig ['u'] ['q'] 5 (by decide) (by decide)

/-- Claim C6 counterexample: with the default configuration (3 retries) and
persistent timeouts, exhausting the retries returns the *timeout
classification* message, not a "max retries exceeded" message — the
`"Max retries exceeded"` return after the loop is dead code. -/
theorem C6_counterexample :
    (scrape_with_requests defaultConfig ['u'] (fun _ => FetchAttempt.timeout)).1.error
        = some (requestTimeoutMsg defaultConfig)
    ∧ (search_query defaultConfig (fun _ => HttpAttempt.timeout) ['q'] 5).1.error
        = some (requestTimeoutMsg defaultConfig)
    ∧ requestTimeoutMsg defaultConfig ≠ maxRetriesMsg :=
  ⟨rfl, rfl, by decide⟩

/-- Claim C6 (amended): when the retryable failures (timeout, connection
failure) persist through all `max_retries` attempts, the operation returns an
error outcome whose message is the *classification of the persistent
failure* — the timeout message or the connection-failure message — not a
"max retries exceeded" message; that post-loop outcome is unreachable for
`max_retries ≥ 1`. -/
theorem C6_exhaustion_message (cfg : Config) (url q : List Char) (n : Int)
    (hretries : 1 ≤ cfg.max_retries) :
    (scrape_with_requests cfg url (fun _ => FetchAttempt.timeout)).1
        = scrapeError "requests".toList (requestTimeoutMsg cfg)
    ∧ (scrape_with_requests cfg url (fun _ => FetchAttempt.connError)).1
        = scrapeError "requests".toList (connectMsg url)
    ∧ (search_query cfg (fun _ => HttpAttempt.timeout) q n).1
        = { status := .error, error := some (requestTimeoutMsg cfg),
            count := 0, results := [] }
    ∧ (search_query cfg (fun _ => HttpAttempt.connError) q n).1
        = { status := .error, error := some (searchConnMsg cfg),
            count := 0, results := [] } := by
  refine ⟨?_, ?_, ?_, ?_⟩
  · rw [scrape_with_requests, scrape_requests_go_timeout cfg url cfg.max_retries 0 hretries]
  · rw [scrape_with_requests, scrape_requests_go_conn cfg url cfg.max_retries 0 hretries]
  · rw [search_query, search_go_timeout cfg _ cfg.max_retries 0 hretries]
  · rw [search_query, search_go_conn cfg _ cfg.max_retries 0 hretries]

theorem C6_exhaustion_message_witness :
    (scrape_with_requests defaultConfig ['u'] (fun _ => FetchAttempt.timeout)).1
        = scrapeError "requests".toList (requestTimeoutMsg defaultConfig)
    ∧ (scrape_with_requests defaultConfig ['u'] (fun _ => FetchAttempt.connError)).1
        = scrapeError "requests".toList (connectMsg ['u'])
    ∧ (search_query defaultConfig (fun _ => HttpAttempt.timeout) ['q'] 5).1
        = { status := .error, error := some (requestTimeoutMsg defaultConfig),
            count := 0, results := [] }
    ∧ (search_query defaultConfig (fun _ => HttpAttempt.connError) ['q'] 5).1
        = { status := .error, error := some (searchConnMsg defaultConfig),
            count := 0, results := [] } :=
  C6_exhaustion_message defaultConfig ['u'] ['q'] 5 (by decide)

/-! ## C7 — page handles are always closed -/

theorem scrape_browser_go_trace (cfg : Config) (env : Nat → BrowserAttempt) :
    ∀ (fuel attempt : Nat),
      ((scrape_with_browser_go cfg env attempt fuel).2.closes
          = (scrape_with_browser_go cfg env attempt fuel).2.opens)
      ∧ (∀ i, i ∈ (scrape_with_browser_go cfg env attempt fuel).2.opens → attempt ≤ i)
      ∧ (scrape_with_browser_go cfg env attempt fuel).2.opens.Pairwise (· < ·) := by
  intro fuel
  induction fuel with
  | zero =>
    intro attempt
    refine ⟨rfl, fun i hi => ?_, List.Pairwise.nil⟩
    cases hi
  | succ f ih =>
    intro attempt
    obtain ⟨ihEq, ihGe, ihPw⟩ := ih (attempt + 1)
    rw [scrape_with_browser_go]
    cases henv : env attempt with
    | getBrowserFail msg =>
      dsimp only
      refine ⟨rfl, fun i hi => ?_, List.Pairwise.nil⟩
      cases hi
    | newPageFail excName msg =>
      dsimp only
      by_cases hf : f = 0
      · subst hf
        rw [if_pos rfl]
        refine ⟨rfl, fun i hi => ?_, List.Pairwise.nil⟩
        simp at hi
      · rw [if_neg hf]
        exact ⟨ihEq, fun i hi => Nat.le_of_succ_le (ihGe i hi), ihPw⟩
    | gotoTimeout =>
      dsimp only
      by_cases hf : f = 0
      · subst hf
        rw [if_pos rfl]
        refine ⟨rfl, fun i hi => ?_, ?_⟩
        · rcases List.mem_singleton.mp hi with rfl; rfl
        · exact List.pairwise_singleton _ _
      · rw [if_neg hf]
        refine ⟨by rw [ihEq], fun i hi => ?_, ?_⟩
        · rcases List.mem_cons.mp hi with rfl | hi
          · rfl
          · exact Nat.le_of_succ_le (ihGe i hi)
        · exact List.pairwise_cons.mpr ⟨fun y hy => Nat.lt_of_succ_le (ihGe y hy), ihPw⟩
    | pageFail excName msg =>
      dsimp only
      by_cases hf : f = 0
      · subst hf
        rw [if_pos rfl]
        refine ⟨rfl, fun i hi => ?_, ?_⟩
        · rcases List.mem_singleton.mp hi with rfl; rfl
        · exact List.pairwise_singleton _ _
      · rw [if_neg hf]
        refine ⟨by rw [ihEq], fun i hi => ?_, ?_⟩
        · rcases List.mem_cons.mp hi with rfl | hi
          · rfl
          · exact Nat.le_of_succ_le (ihGe i hi)
        · exact List.pairwise_cons.mpr ⟨fun y hy => Nat.lt_of_succ_le (ihGe y hy), ihPw⟩
    | ok doc title =>
      dsimp only
      refine ⟨rfl, fun i hi => ?_, ?_⟩
      · rcases List.mem_singleton.mp hi with rfl; rfl
      · exact List.pairwise_singleton _ _

theorem server_scrape_go_trace :
    ∀ (items : List ServerScrapeItem) (idx : Nat) (acc : List (List Char × ScrapeOutcome)),
      ((server_scrape_pages_go idx acc items).2.2 = (server_scrape_pages_go idx acc items).2.1)
      ∧ (∀ i, i ∈ (server_scrape_pages_go idx acc items).2.1 → idx ≤ i)
      ∧ (server_scrape_pages_go idx acc items).2.1.Pairwise (· < ·) := by
  intro items
  induction items with
  | nil =>
    intro idx acc
    refine ⟨rfl, fun i hi => ?_, List.Pairwise.nil⟩
    cases hi
  | cons it rest ih =>
    intro idx acc
    obtain ⟨ihEq, ihGe, ihPw⟩ := ih (idx + 1) (insertAssoc it.config.url (serverScrapeStep idx it).1 acc)
    rw [server_scrape_pages_go]
    by_cases hopen : serverItemOpensPage it
    · have hstep2 : (serverScrapeStep idx it).2.1 = [idx] := by
        rw [serverScrapeStep]; simp [hopen]
      have hstep3 : (serverScrapeStep idx it).2.2 = [idx] := by
        rw [serverScrapeStep]; simp [hopen]
      refine ⟨?_, fun i hi => ?_, ?_⟩
      · show (serverScrapeStep idx it).2.2 ++ _ = (serverScrapeStep idx it).2.1 ++ _
        rw [hstep2, hstep3, ihEq]
      · rw [hstep2] at hi
        rcases List.mem_append.mp hi with hi | hi
        · rcases List.mem_singleton.mp hi with rfl; rfl
        · exact Nat.le_of_succ_le (ihGe i hi)
      · show ((serverScrapeStep idx it).2.1 ++ _).Pairwise (· < ·)
        rw [hstep2]
        refine List.pairwise_append.mpr ⟨List.pairwise_singleton _ _, ihPw, ?_⟩
        intro a ha b hb
        rcases List.mem_singleton.mp ha with rfl
        exact ihGe b hb
    · have hstep2 : (serverScrapeStep idx it).2.1 = [] := by
        rw [serverScrapeStep]; simp [hopen]
      have hstep3 : (serverScrapeStep idx it).2.2 = [] := by
        rw [serverScrapeStep]; simp [hopen]
      refine ⟨?_, fun i hi => ?_, ?_⟩
      · show (serverScrapeStep idx it).2.2 ++ _ = (serverScrapeStep idx it).2.1 ++ _
        rw [hstep2, hstep3, ihEq]
      · rw [hstep2] at hi
        rcases List.mem_append.mp hi with hi | hi
        · cases hi
        · exact Nat.le_of_succ_le (ihGe i hi)
      · show ((serverScrapeStep idx it).2.1 ++ _).Pairwise (· < ·)
        rw [hstep2]
        simpa using ihPw

/-- Claim C7: on every exit path of the rendered-strategy fetch — success,
navigation timeout, missing rendering engine, or any other fault — every
browser page handle that was opened is closed before the function returns,
exactly once per opened page: the close-event list equals the open-event
list, and no page is opened (hence closed) twice.  The same holds for the
browser path of `server.py`'s `scrape_pages`. -/
theorem C7_page_always_closed (cfg : Config) (env : Nat → BrowserAttempt)
    (sItems : List ServerScrapeItem) :
    ((scrape_with_browser cfg env).2.closes = (scrape_with_browser cfg env).2.opens)
    ∧ (scrape_with_browser cfg env).2.opens.Nodup
    ∧ (∀ i, (scrape_with_browser cfg env).2.closes.count i
        = (scrape_with_browser cfg env).2.opens.count i)
    ∧ (∀ i, (scrape_with_browser cfg env).2.opens.count i ≤ 1)
    ∧ ((server_scrape_pages sItems).2.2 = (server_scrape_pages sItems).2.1)
    ∧ (server_scrape_pages sItems).2.1.Nodup
    ∧ (∀ i, (server_scrape_pages sItems).2.2.count i
        = (server_scrape_pages sItems).2.1.count i)
    ∧ (∀ i, (server_scrape_pages sItems).2.1.count i ≤ 1) := by
  obtain ⟨hEq0, _, hPw0⟩ := scrape_browser_go_trace cfg env cfg.max_retries 0
  obtain ⟨hEq0', _, hPw0'⟩ := server_scrape_go_trace sItems 0 []
  have hEq : (scrape_with_browser cfg env).2.closes = (scrape_with_browser cfg env).2.opens := hEq0
  have hPw : (scrape_with_browser cfg env).2.opens.Pairwise (· < ·) := hPw0
  have hEq' : (server_scrape_pages sItems).2.2 = (server_scrape_pages sItems).2.1 := hEq0'
  have hPw' : (server_scrape_pages sItems).2.1.Pairwise (· < ·) := hPw0'
  have hnd : (scrape_with_browser cfg env).2.opens.Nodup := (hPw.imp fun h => Nat.ne_of_lt h)
  have hnd' : (server_scrape_pages sItems).2.1.Nodup := (hPw'.imp fun h => Nat.ne_of_lt h)
  exact ⟨hEq, hnd, fun i => by rw [hEq], fun i => List.nodup_iff_count_le_one.mp hnd i,
    hEq', hnd', fun i => by rw [hEq'], fun i => List.nodup_iff_count_le_one.mp hnd' i⟩

/-! ## C8 — idempotence of the content normaliser -/

theorem words_cons_ws {c : Char} {cs : List Char} (h : isWs c = true) :
    words (c :: cs) = words cs := by
  rw [words, if_pos h]

theorem words_cons_nows {c : Char} {cs : List Char} (h : isWs c = false) :
    words (c :: cs)
      = (c :: cs.takeWhile fun x => !isWs x) :: words (cs.dropWhile fun x => !isWs x) := by
  rw [words, if_neg (by simp [h])]

theorem takeWhile_append_of_all {α : Type} (p : α → Bool) (w x : List α)
    (h : ∀ a ∈ w, p a = true) :
    (w ++ x).takeWhile p = w ++ x.takeWhile p := by
  induction w with
  | nil => rfl
  | cons a w ih =>
    rw [List.cons_append, List.takeWhile_cons_of_pos (h a (List.mem_cons_self a w)),
      ih fun b hb => h b (List.mem_cons_of_mem a hb), List.cons_append]

theorem dropWhile_append_of_all {α : Type} (p : α → Bool) (w x : List α)
    (h : ∀ a ∈ w, p a = true) :
    (w ++ x).dropWhile p = x.dropWhile p := by
  induction w with
  | nil => rfl
  | cons a w ih =>
    rw [List.cons_append, List.dropWhile_cons_of_pos (h a (List.mem_cons_self a w)),
      ih fun b hb => h b (List.mem_cons_of_mem a hb)]

theorem dropWhile_head_false {α : Type} (p : α → Bool) :
    ∀ (l : List α) {c : α} {cs : List α}, List.dropWhile p l = c :: cs → p c = false := by
  intro l
  induction l with
  | nil => intro c cs h; cases h
  | cons a l ih =>
    intro c cs h
    by_cases ha : p a = true
    · rw [List.dropWhile_cons_of_pos ha] at h
      exact ih h
    · rw [List.dropWhile_cons_of_neg ha] at h
      cases h
      simpa using ha

theorem words_nil : words [] = [] := by
  rw [words]

theorem words_allws : ∀ l : List Char, (∀ c ∈ l, isWs c = true) → words l = [] := by
  intro l
  induction l with
  | nil => intro _; exact words_nil
  | cons c cs ih =>
    intro h
    rw [words_cons_ws (h c (List.mem_cons_self c cs))]
    exact ih fun b hb => h b (List.mem_cons_of_mem c hb)

theorem words_props : ∀ l : List Char, ∀ w ∈ words l, w ≠ [] ∧ ∀ c ∈ w, isWs c = false := by
  intro l
  induction l using words.induct with
  | case1 =>
    rw [words_nil]
    intro w hw
    cases hw
  | case2 c cs h ih =>
    rw [words_cons_ws h]
    exact ih
  | case3 c cs h ih =>
    have hc : isWs c = false := by simpa using h
    rw [words_cons_nows hc]
    intro w hw
    rcases List.mem_cons.mp hw with rfl | hw
    · refine ⟨by simp, fun x hx => ?_⟩
      rcases List.mem_cons.mp hx with rfl | hx
      · exact hc
      · simpa using List.mem_takeWhile_imp hx
    · exact ih w hw

theorem words_append_allws :
    ∀ l t : List Char, (∀ c ∈ t, isWs c = true) → words (l ++ t) = words l := by
  intro l
  induction l using words.induct with
  | case1 =>
    intro t ht
    rw [List.nil_append, words_allws t ht, words_nil]
  | case2 c cs h ih =>
    intro t ht
    rw [List.cons_append, words_cons_ws h, words_cons_ws h]
    exact ih t ht
  | case3 c cs h ih =>
    intro t ht
    have hc : isWs c = false := by simpa using h
    rw [List.cons_append, words_cons_nows hc, words_cons_nows hc]
    have hwall : ∀ a ∈ cs.takeWhile (fun x => !isWs x), (!isWs a) = true :=
      fun a ha => @List.mem_takeWhile_imp Char (fun x => !isWs x) cs a ha
    have hcs : cs.takeWhile (fun x => !isWs x) ++ cs.dropWhile (fun x => !isWs x) = cs :=
      List.takeWhile_append_dropWhile _ _
    cases hr : cs.dropWhile (fun x => !isWs x) with
    | nil =>
      have htnil : (t.takeWhile fun x => !isWs x) = [] := by
        cases t with
        | nil => rfl
        | cons d ds =>
          exact List.takeWhile_cons_of_neg (by simp [ht d (List.mem_cons_self d ds)])
      have hdt : (t.dropWhile fun x => !isWs x) = t := by
        cases t with
        | nil => rfl
        | cons d ds =>
          exact List.dropWhile_cons_of_neg (by simp [ht d (List.mem_cons_self d ds)])
      have htke : ((cs ++ t).takeWhile fun x => !isWs x) = cs.takeWhile fun x => !isWs x := by
        conv_lhs => rw [← hcs, hr, List.append_nil]
        rw [takeWhile_append_of_all _ _ _ hwall, htnil, List.append_nil]
      have hdrp : ((cs ++ t).dropWhile fun x => !isWs x) = t := by
        conv_lhs => rw [← hcs, hr, List.append_nil]
        rw [dropWhile_append_of_all _ _ _ hwall, hdt]
      rw [htke, hdrp, words_allws t ht, words_nil]
    | cons d r =>
      have hd : (!isWs d) = false := dropWhile_head_false (fun x => !isWs x) cs hr
      have htke : ((cs ++ t).takeWhile fun x => !isWs x) = cs.takeWhile fun x => !isWs x := by
        conv_lhs => rw [← hcs, hr]
        rw [List.append_assoc, takeWhile_append_of_all _ _ _ hwall, List.cons_append,
          List.takeWhile_cons_of_neg (by simp [hd]), List.append_nil]
      have hdrp : ((cs ++ t).dropWhile fun x => !isWs x) = (d :: r) ++ t := by
        conv_lhs => rw [← hcs, hr]
        rw [List.append_assoc, dropWhile_append_of_all _ _ _ hwall, List.cons_append,
          List.dropWhile_cons_of_neg (by simp [hd])]
      have ihdr := ih t ht
      rw [hr] at ihdr
      rw [htke, hdrp, ihdr]

theorem words_append_of_nows (w t : List Char) (hw : w ≠ [])
    (h : ∀ c ∈ w, isWs c = false) :
    words (w ++ t)
      = (w ++ t.takeWhile fun x => !isWs x) :: words (t.dropWhile fun x => !isWs x) := by
  cases w with
  | nil => cases hw rfl
  | cons c w' =>
    have hc : isWs c = false := h c (List.mem_cons_self c w')
    have hw' : ∀ a ∈ w', (!isWs a) = true :=
      fun a ha => by simp [h a (List.mem_cons_of_mem c ha)]
    rw [List.cons_append, words_cons_nows hc,
      takeWhile_append_of_all _ _ _ hw', dropWhile_append_of_all _ _ _ hw',
      List.cons_append]

theorem words_joinWords : ∀ ws : List (List Char),
    (∀ w ∈ ws, w ≠ [] ∧ ∀ c ∈ w, isWs c = false) → words (joinWords ws) = ws := by
  intro ws
  induction ws with
  | nil => intro _; exact words_nil
  | cons w ws ih =>
    intro h
    obtain ⟨hw, hwc⟩ := h w (List.mem_cons_self w ws)
    cases ws with
    | nil =>
      show words (joinWords [w]) = [w]
      rw [joinWords]
      have hjw := words_append_of_nows w [] hw hwc
      simpa [words_nil] using hjw
    | cons v vs =>
      rw [show joinWords (w :: v :: vs) = w ++ ' ' :: joinWords (v :: vs) from rfl,
        words_append_of_nows w (' ' :: joinWords (v :: vs)) hw hwc,
        List.takeWhile_cons_of_neg (by decide), List.dropWhile_cons_of_neg (by decide),
        words_cons_ws (by decide), ih fun x hx => h x (List.mem_cons_of_mem w hx),
        List.append_nil]

theorem words_dropWhile_isWs : ∀ l : List Char, words (l.dropWhile isWs) = words l := by
  intro l
  induction l with
  | nil => rfl
  | cons c cs ih =>
    by_cases hc : isWs c = true
    · rw [List.dropWhile_cons_of_pos hc, ih, words_cons_ws hc]
    · rw [List.dropWhile_cons_of_neg (by simp [hc])]

theorem words_stripList (l : List Char) : words (stripList l) = words l := by
  have h1 : words (l.dropWhile isWs) = words l := words_dropWhile_isWs l
  have hsplit : l.dropWhile isWs
      = stripList l ++ (((l.dropWhile isWs).reverse.takeWhile isWs).reverse) := by
    conv_lhs => rw [← List.reverse_reverse (l.dropWhile isWs),
      ← List.takeWhile_append_dropWhile isWs (l.dropWhile isWs).reverse]
    rw [List.reverse_append]
    rfl
  have htail : ∀ c ∈ ((l.dropWhile isWs).reverse.takeWhile isWs).reverse, isWs c = true :=
    fun c hc => List.mem_takeWhile_imp (List.mem_reverse.mp hc)
  rw [← h1, hsplit, words_append_allws _ _ htail]

theorem normalizeWs_idem (l : List Char) : normalizeWs (normalizeWs l) = normalizeWs l := by
  rw [normalizeWs, normalizeWs, words_joinWords (words l) (words_props l)]

theorem clean_html_text_normalized (y : List Char) :
    clean_html (parseText (normalizeWs y)) = normalizeWs y := by
  have hsw : words (normalizeWs y) = words y := by
    rw [normalizeWs, words_joinWords (words y) (words_props y)]
  show normalizeWs (getTextStrip (pruneNode (Html.text (normalizeWs y)))) = normalizeWs y
  rw [show pruneNode (Html.text (normalizeWs y)) = Html.text (normalizeWs y) from rfl]
  by_cases hnil : stripList (normalizeWs y) = []
  · have hys : words y = [] := by
      rw [← hsw, ← words_stripList, hnil, words_nil]
    have hs0 : normalizeWs y = [] := by
      rw [normalizeWs, hys]
      rfl
    rw [hs0, show getTextStrip (Html.text []) = [] from rfl, normalizeWs, words_nil]
    rfl
  · rw [getTextStrip, textFragments, if_neg hnil]
    show normalizeWs (joinWords [stripList (normalizeWs y)]) = normalizeWs y
    rw [show joinWords [stripList (normalizeWs y)] = stripList (normalizeWs y) from by
      rw [joinWords]]
    rw [normalizeWs, words_stripList, hsw, ← normalizeWs]

/-- Claim C8: the content normaliser is idempotent — for every HTML document,
re-running `clean_html` on a parse of its already-normalised text output
returns that same text (parsing markup-free plain text is modelled as a
single text node, `parseText`). -/
theorem C8_normalizer_idempotent (doc : Html) :
    clean_html (parseText (clean_html doc)) = clean_html doc :=
  clean_html_text_normalized (getTextStrip (pruneNode doc))

/-! ## C9 — boundary fault handling -/

theorem server_scrape_pages_fst :
    ∀ (items : List ServerScrapeItem) (idx : Nat) (acc : List (List Char × ScrapeOutcome)),
      (server_scrape_pages_go idx acc items).1
        = items.foldl (fun d it => insertAssoc it.config.url (serverItemOutcome it) d) acc := by
  intro items
  induction items with
  | nil => intro idx acc; rfl
  | cons it rest ih =>
    intro idx acc
    rw [server_scrape_pages_go]
    dsimp only
    rw [ih]
    rfl

theorem server_scrape_pages_eq (items : List ServerScrapeItem) :
    (server_scrape_pages items).1
      = buildDict (items.map fun it => (it.config.url, serverItemOutcome it)) := by
  rw [server_scrape_pages, server_scrape_pages_fst, buildDict, List.foldl_map]

theorem server_search_web_go_ok :
    ∀ (items : List (QueryConfig × HttpAttempt)) (acc : List (List Char × SearchOutcome))
      (n : Nat), (∀ it ∈ items, (it.1.query).isSome) →
      (server_search_web_go acc n items).isOk = true := by
  intro items
  induction items with
  | nil => intro acc n _; rfl
  | cons it rest ih =>
    intro acc n h
    have hq := h it (List.mem_cons_self it rest)
    cases hq2 : it.1.query with
    | none => rw [hq2] at hq; cases hq
    | some q =>
      rw [server_search_web_go, hq2]
      exact ih _ _ fun jt hjt => h jt (List.mem_cons_of_mem it hjt)

theorem server_search_web_go_err :
    ∀ (items : List (QueryConfig × HttpAttempt)) (acc : List (List Char × SearchOutcome))
      (n : Nat), (∃ it ∈ items, it.1.query = none) →
      server_search_web_go acc n items = .error "KeyError: query".toList := by
  intro items
  induction items with
  | nil =>
    rintro acc n ⟨it, hit, _⟩
    cases hit
  | cons it rest ih =>
    rintro acc n ⟨jt, hjt, hq⟩
    cases hq2 : it.1.query with
    | none => rw [server_search_web_go, hq2]
    | some q =>
      rw [server_search_web_go, hq2]
      rcases List.mem_cons.mp hjt with rfl | hjt
      · rw [hq2] at hq; cases hq
      · exact ih _ _ ⟨jt, hjt, hq⟩

/-- Claim C9 counterexample: `server.py`'s `search_web` tool has no boundary
catch — an orchestration fault (here: an item without the `query` key, whose
lookup happens outside the per-item `try`) propagates as a raised fault out
of the tool function instead of being converted into a serialized error
payload. -/
theorem C9_counterexample :
    (server_search_web [({ query := none }, HttpAttempt.otherError ['x'])]).isOk = false :=
  rfl

/-- Claim C9 (amended): at the tool boundary, faults of a single item's
execution are converted into per-item error records — `scrape_pages` runs
every item inside its `try/except` chain and always returns a complete
mapping, and `search_web` returns normally whenever every item has a
`query` key; but there is no boundary-level catch: if any item lacks the
`query` key, `search_web` raises `KeyError` out of the tool function. -/
theorem C9_boundary_faults (items : List (QueryConfig × HttpAttempt))
    (sItems : List ServerScrapeItem) :
    ((∀ it ∈ items, (it.1.query).isSome) → (server_search_web items).isOk = true)
    ∧ ((∃ it ∈ items, it.1.query = none) →
        server_search_web items = .error "KeyError: query".toList)
    ∧ ((server_scrape_pages sItems).1.map Prod.fst
        = newKeys [] (sItems.map fun it => it.config.url)) := by
  refine ⟨fun h => server_search_web_go_ok items [] 0 h,
    fun h => server_search_web_go_err items [] 0 h, ?_⟩
  rw [server_scrape_pages_eq, buildDict_keys, List.map_map]
  rfl

theorem C9_boundary_faults_witness :
    (server_search_web [({ query := some ['q'] }, HttpAttempt.timeout)]).isOk = true
    ∧ server_search_web [({ query := none }, HttpAttempt.timeout)]
        = .error "KeyError: query".toList
    ∧ ((server_scrape_pages
          [{ config := { url := ['u'] } }]).1.map Prod.fst
        = newKeys [] (([{ config := { url := ['u'] } }] : List ServerScrapeItem).map
            fun it => it.config.url)) :=
  ⟨(C9_boundary_faults [({ query := some ['q'] }, HttpAttempt.timeout)] []).1
      (fun it hit => by rcases List.mem_singleton.mp hit with rfl; rfl),
   (C9_boundary_faults [({ query := none }, HttpAttempt.timeout)] []).2.1
      ⟨({ query := none }, HttpAttempt.timeout), List.mem_singleton.mpr rfl, rfl⟩,
   (C9_boundary_faults [] [{ config := { url := ['u'] } }]).2.2⟩

/-! ## C10 — error outcomes carry an empty payload -/

theorem search_query_go_error_empty (cfg : Config) (env : Nat → HttpAttempt) (n : Nat) :
    ∀ (fuel attempt : Nat),
      (search_query_go cfg env n attempt fuel).1.status = .error →
      (search_query_go cfg env n attempt fuel).1.count = 0
      ∧ (search_query_go cfg env n attempt fuel).1.results = [] := by
  intro fuel
  induction fuel with
  | zero => intro attempt _; exact ⟨rfl, rfl⟩
  | succ f ih =>
    intro attempt
    rw [search_query_go]
    cases henv : env attempt with
    | ok raws =>
      dsimp only
      intro h
      cases h
    | timeout =>
      dsimp only
      by_cases hf : f = 0
      · subst hf
        rw [if_pos rfl]
        intro _
        exact ⟨rfl, rfl⟩
      · rw [if_neg hf]
        exact ih (attempt + 1)
    | connError =>
      dsimp only
      by_cases hf : f = 0
      · subst hf
        rw [if_pos rfl]
        intro _
        exact ⟨rfl, rfl⟩
      · rw [if_neg hf]
        exact ih (attempt + 1)
    | httpError code => intro _; exact ⟨rfl, rfl⟩
    | invalidJson msg => intro _; exact ⟨rfl, rfl⟩
    | otherError msg => intro _; exact ⟨rfl, rfl⟩

theorem scrape_requests_go_error_empty (cfg : Config) (url : List Char)
    (env : Nat → FetchAttempt) :
    ∀ (fuel attempt : Nat),
      (scrape_with_requests_go cfg url env attempt fuel).1.status = .error →
      (scrape_with_requests_go cfg url env attempt fuel).1.title = []
      ∧ (scrape_with_requests_go cfg url env attempt fuel).1.content = []
      ∧ (scrape_with_requests_go cfg url env attempt fuel).1.length = 0 := by
  intro fuel
  induction fuel with
  | zero => intro attempt _; exact ⟨rfl, rfl, rfl⟩
  | succ f ih =>
    intro attempt
    rw [scrape_with_requests_go]
    cases henv : env attempt with
    | ok doc =>
      dsimp only
      intro h
      cases h
    | timeout =>
      dsimp only
      by_cases hf : f = 0
      · subst hf
        rw [if_pos rfl]
        intro _
        exact ⟨rfl, rfl, rfl⟩
      · rw [if_neg hf]
        exact ih (attempt + 1)
    | connError =>
      dsimp only
      by_cases hf : f = 0
      · subst hf
        rw [if_pos rfl]
        intro _
        exact ⟨rfl, rfl, rfl⟩
      · rw [if_neg hf]
        exact ih (attempt + 1)
    | httpError code => intro _; exact ⟨rfl, rfl, rfl⟩
    | otherError excName msg => intro _; exact ⟨rfl, rfl, rfl⟩

theorem scrape_browser_go_error_empty (cfg : Config) (env : Nat → BrowserAttempt) :
    ∀ (fuel attempt : Nat),
      (scrape_with_browser_go cfg env attempt fuel).1.status = .error →
      (scrape_with_browser_go cfg env attempt fuel).1.title = []
      ∧ (scrape_with_browser_go cfg env attempt fuel).1.content = []
      ∧ (scrape_with_browser_go cfg env attempt fuel).1.length = 0 := by
  intro fuel
  induction fuel with
  | zero => intro attempt _; exact ⟨rfl, rfl, rfl⟩
  | succ f ih =>
    intro attempt
    rw [scrape_with_browser_go]
    cases henv : env attempt with
    | getBrowserFail msg => intro _; exact ⟨rfl, rfl, rfl⟩
    | newPageFail excName msg =>
      dsimp only
      by_cases hf : f = 0
      · subst hf
        rw [if_pos rfl]
        intro _
        exact ⟨rfl, rfl, rfl⟩
      · rw [if_neg hf]
        exact ih (attempt + 1)
    | gotoTimeout =>
      dsimp only
      by_cases hf : f = 0
      · subst hf
        rw [if_pos rfl]
        intro _
        exact ⟨rfl, rfl, rfl⟩
      · rw [if_neg hf]
        exact ih (attempt + 1)
    | pageFail excName msg =>
      dsimp only
      by_cases hf : f = 0
      · subst hf
        rw [if_pos rfl]
        intro _
        exact ⟨rfl, rfl, rfl⟩
      · rw [if_neg hf]
        exact ih (attempt + 1)
    | ok doc title =>
      dsimp only
      intro h
      cases h

/-- Claim C10: every error outcome carries an empty payload, however far the
run progressed: a `search_query` error outcome always has `count = 0` and
`results = []`, and a `scrape_with_requests` or `scrape_with_browser` error
outcome always has `title = ""`, `content = ""` and `length = 0`. -/
theorem C10_error_outcomes_empty (cfg : Config) (env : Nat → HttpAttempt)
    (envF : Nat → FetchAttempt) (envB : Nat → BrowserAttempt)
    (q url : List Char) (n : Int) :
    ((search_query cfg env q n).1.status = .error →
      (search_query cfg env q n).1.count = 0 ∧ (search_query cfg env q n).1.results = [])
    ∧ ((scrape_with_requests cfg url envF).1.status = .error →
      (scrape_with_requests cfg url envF).1.title = []
      ∧ (scrape_with_requests cfg url envF).1.content = []
      ∧ (scrape_with_requests cfg url envF).1.length = 0)
    ∧ ((scrape_with_browser cfg envB).1.status = .error →
      (scrape_with_browser cfg envB).1.title = []
      ∧ (scrape_with_browser cfg envB).1.content = []
      ∧ (scrape_with_browser cfg envB).1.length = 0) :=
  ⟨fun h => search_query_go_error_empty cfg env _ cfg.max_retries 0 h,
   fun h => scrape_requests_go_error_empty cfg url envF cfg.max_retries 0 h,
   fun h => scrape_browser_go_error_empty cfg envB cfg.max_retries 0 h⟩

theorem C10_error_outcomes_empty_witness :
    ((search_query defaultConfig (fun _ => HttpAttempt.timeout) ['q'] 5).1.status = .error →
      (search_query defaultConfig (fun _ => HttpAttempt.timeout) ['q'] 5).1.count = 0
      ∧ (search_query defaultConfig (fun _ => HttpAttempt.timeout) ['q'] 5).1.results = [])
    ∧ ((scrape_with_requests defaultConfig ['u'] (fun _ => FetchAttempt.timeout)).1.status
          = .error →
      (scrape_with_requests defaultConfig ['u'] (fun _ => FetchAttempt.timeout)).1.title = []
      ∧ (scrape_with_requests defaultConfig ['u'] (fun _ => FetchAttempt.timeout)).1.content = []
      ∧ (scrape_with_requests defaultConfig ['u'] (fun _ => FetchAttempt.timeout)).1.length = 0)
    ∧ ((scrape_with_browser defaultConfig (fun _ => BrowserAttempt.gotoTimeout)).1.status
          = .error →
      (scrape_with_browser defaultConfig (fun _ => BrowserAttempt.gotoTimeout)).1.title = []
      ∧ (scrape_with_browser defaultConfig (fun _ => BrowserAttempt.gotoTimeout)).1.content = []
      ∧ (scrape_with_browser defaultConfig (fun _ => BrowserAttempt.gotoTimeout)).1.length = 0) :=
  C10_error_outcomes_empty defaultConfig (fun _ => HttpAttempt.timeout)
    (fun _ => FetchAttempt.timeout) (fun _ => BrowserAttempt.gotoTimeout) ['q'] ['u'] 5

end SearxngMCP
